import Mathlib

/-!
# Verification of the tracing-tape recorder and parser

This file gives a shallow embedding, in Lean, of the core of the
`tracing-tape` repository:

* the chapter-buffered writer's reservation arithmetic
  (`tracing-tape-recorder/src/lib.rs`, `TapeRecorderInner::write`),
* the byte-level record builders used by the recorder
  (`tracing-tape/src/record/*.rs`, the `*Record::new` constructors
  together with their `zerocopy::AsBytes` layout), and
* the parser/reconstructor (`tracing-tape-parser/src/lib.rs`):
  `Value::parse`, the `Intermediate` record dispatch, and the
  `TapeData::new` finalization, up to `Tape::parse` and
  `Tape::time_range`.

Modelling conventions:

* Bytes are `Nat`s (each in `0..256` for real tapes); byte strings are
  `List Nat`.  Multi-byte scalars are little-endian, as in the format.
* Rust panics (`unwrap`, `expect`, `assert!`, `panic!`, slice
  out-of-bounds) are modelled as `none`; fallible functions return
  `Option`.
* `HashMap` is modelled as an association list with replace-on-insert
  (`insertA`), remove (`removeA`) and lookup (`lookupA`); the maps are
  never iterated in an order-sensitive way by the modelled code paths.
* `Vec::with_capacity(n)` followed by the `len == capacity` promotion
  check is modelled by storing the declared capacity `n` and comparing
  `length = n` (the code relies on `with_capacity` being exact).
* Rust `x >> pot` and `x & (chapter_size - 1)` for the power-of-two
  `chapter_size = 2 ^ pot` are written `x / 2 ^ pot` and `x % 2 ^ pot`.
* Loops that the Rust code performs without a decreasing measure (the
  parser's record loop can fail to advance when a record declares
  `len = 0`, and `TapeRecorderInner::write` retries after a chapter
  straddle) are given explicit fuel; exhausting fuel is `none`, which
  models the divergence of the source on such (malformed) inputs.
-/

namespace TTape

/-! ## Byte-level utilities -/

/-- Little-endian value of a byte list (least significant byte first). -/
def leToNat : List Nat → Nat
  | [] => 0
  | b :: bs => b + 256 * leToNat bs

/-- Little-endian encoding of `n` in `k` bytes (truncates above `2 ^ (8 * k)`). -/
def natToLE : Nat → Nat → List Nat
  | 0, _ => []
  | k + 1, n => n % 256 :: natToLE k (n / 256)

/-- Two's-complement interpretation of an unsigned `w`-bit value. -/
def toSigned (w : Nat) (n : Nat) : Int :=
  if n < 2 ^ (w - 1) then (n : Int) else (n : Int) - 2 ^ w

/-- `len` bytes of `data` starting at offset `off`. -/
def readBytes (data : List Nat) (off len : Nat) : List Nat :=
  (data.drop off).take len

def readU8 (data : List Nat) (off : Nat) : Nat := leToNat (readBytes data off 1)

def readU16 (data : List Nat) (off : Nat) : Nat := leToNat (readBytes data off 2)

def readU32 (data : List Nat) (off : Nat) : Nat := leToNat (readBytes data off 4)

def readU64 (data : List Nat) (off : Nat) : Nat := leToNat (readBytes data off 8)

def readI64 (data : List Nat) (off : Nat) : Int := toSigned 64 (leToNat (readBytes data off 8))

def readI128 (data : List Nat) (off : Nat) : Int := toSigned 128 (leToNat (readBytes data off 16))

/-! ## Association lists (model of `HashMap`) -/

def lookupA {K V : Type} [DecidableEq K] : List (K × V) → K → Option V
  | [], _ => none
  | (k, v) :: rest, key => if k = key then some v else lookupA rest key

def insertA {K V : Type} [DecidableEq K] : List (K × V) → K → V → List (K × V)
  | [], key, v => [(key, v)]
  | (k, w) :: rest, key, v =>
    if k = key then (key, v) :: rest else (k, w) :: insertA rest key v

def removeA {K V : Type} [DecidableEq K] : List (K × V) → K → List (K × V)
  | [], _ => []
  | (k, w) :: rest, key => if k = key then rest else (k, w) :: removeA rest key

/-! ## The chapter writer (`TapeRecorderInner::write`)

Single-writer semantics of the reservation protocol.  The observable
effects of one `write` call are collected in `WriteEffects`:

* `placedChapter`/`placedOffset`: where the record's bytes finally land;
* `newOffset`: the global offset counter after the call;
* `finishes`: the `(chapter_index, end_offset)` arguments of each
  `Chapter::finish` call performed;
* `dataOffsetStores`: each `data_offset.store` performed on the *next*
  slot, as `(chapter_index, value)`;
* `zeroFills`: each `(chapter, start, end)` byte range filled with
  zeros (the `finish` tail fill plus the straddle prefix fill).
-/

namespace Recorder

structure WriteEffects where
  placedChapter : Nat
  placedOffset : Nat
  newOffset : Nat
  finishes : List (Nat × Nat)
  dataOffsetStores : List (Nat × Nat)
  zeroFills : List (Nat × Nat × Nat)
deriving DecidableEq, Repr

/-- `size > self.chapter_size as usize >> 2`, the `panic!("record too
large")` guard at the top of `TapeRecorderInner::write`.  The chapter
size is `2 ^ pot` and `>> 2` is division by 4. -/
def recordTooLarge (pot size : Nat) : Bool := decide (2 ^ pot / 4 < size)

/-- `TapeRecorderInner::write`, single-threaded.  `fuel` bounds the
straddle-retry recursion (the Rust function calls itself after a
straddle); two units of fuel suffice for any accepted size.  The
division `off / 2 ^ pot` is the source's `offset >> chapter_size_pot`
and `off % 2 ^ pot` is `offset & chapter_offset_mask`. -/
def writeAux (pot : Nat) : Nat → Nat → Nat → Option WriteEffects
  | 0, _, _ => none
  | fuel + 1, off, size =>
    if 2 ^ pot / 4 < size then none
    else
      let dataStart := off
      let dataEnd := off + size
      let startChapter := dataStart / 2 ^ pot
      let endChapter := (dataEnd - 1) / 2 ^ pot
      let chapterOffset := dataStart % 2 ^ pot
      if startChapter = endChapter then
        if dataEnd % 2 ^ pot = 0 then
          -- the record ends exactly on the boundary: this thread owns the
          -- flush; `finish` zero-fills the (empty) tail and the next
          -- slot's `data_offset` is set to 0
          some { placedChapter := startChapter, placedOffset := chapterOffset,
                 newOffset := dataEnd,
                 finishes := [(startChapter, 2 ^ pot)],
                 dataOffsetStores := [(startChapter + 1, 0)],
                 zeroFills := [(startChapter, 2 ^ pot, 2 ^ pot)] }
        else
          some { placedChapter := startChapter, placedOffset := chapterOffset,
                 newOffset := dataEnd,
                 finishes := [], dataOffsetStores := [], zeroFills := [] }
      else
        -- straddle: finish the current chapter just before the record,
        -- store the *end* of the abandoned reservation as the next
        -- slot's data_offset, zero-fill the abandoned prefix of the
        -- next chapter, and retry the whole reservation
        let nextChapterOffset := dataEnd % 2 ^ pot
        (writeAux pot fuel dataEnd size).map fun e =>
          { e with
            finishes := (startChapter, chapterOffset) :: e.finishes,
            dataOffsetStores := (startChapter + 1, nextChapterOffset) :: e.dataOffsetStores,
            zeroFills := (startChapter, chapterOffset, 2 ^ pot)
              :: (startChapter + 1, 0, nextChapterOffset) :: e.zeroFills }

/-- One `TapeRecorderInner::write` call starting from global offset `off`. -/
def write (pot off size : Nat) : Option WriteEffects := writeAux pot 2 off size

end Recorder

/-! ## Record byte builders (`tracing-tape/src/record/*.rs`)

Each builder is the byte image (`zerocopy::AsBytes`, little-endian,
`repr(C)`, unaligned) of the corresponding `*Record::new` constructor
value, followed by the record's variable-length tail where it has one.
-/

/-- `RecordHeader { kind, len }` (3 bytes). -/
def recordHeaderBytes (kind len : Nat) : List Nat := kind :: natToLE 2 len

/-- `CallsiteRecord` (26 bytes) followed by the inline
`name ++ target ++ module_path ++ file` strings.  `info` is the packed
kind/level byte. -/
def callsiteRecordBytes (len info field_count id : Nat)
    (name target module_path file : List Nat) (line : Nat) : List Nat :=
  recordHeaderBytes 8 len ++ [info] ++ natToLE 2 field_count ++
    natToLE 2 name.length ++ natToLE 2 target.length ++
    natToLE 2 module_path.length ++ natToLE 2 file.length ++
    natToLE 4 line ++ natToLE 8 id ++ name ++ target ++ module_path ++ file

/-- `CallsiteFieldRecord` (21 bytes) followed by the field name. -/
def callsiteFieldRecordBytes (callsite_id field_id : Nat) (name : List Nat) : List Nat :=
  recordHeaderBytes 9 (21 + name.length) ++ natToLE 2 name.length ++
    natToLE 8 callsite_id ++ natToLE 8 field_id ++ name

/-- `EventRecord` (29 bytes); `timestamp` is the unsigned bit pattern of
the i64 timestamp. -/
def eventRecordBytes (value_count timestamp callsite_id thread_id : Nat) : List Nat :=
  recordHeaderBytes 16 29 ++ natToLE 2 value_count ++ natToLE 8 timestamp ++
    natToLE 8 callsite_id ++ natToLE 8 thread_id

/-- `EventValueRecord` (20 bytes) followed by the value payload. -/
def eventValueRecordBytes (kind field_id thread_id : Nat) (value : List Nat) : List Nat :=
  recordHeaderBytes 17 (20 + value.length) ++ [kind] ++ natToLE 8 field_id ++
    natToLE 8 thread_id ++ value

/-- `SpanOpenRecord2` (36 bytes): the extended span-open layout written
by `TapeRecorder::on_new_span`, with the trailing parent-kind byte. -/
def spanOpenRecord2Bytes (id parent_kind parent_id callsite_id timestamp : Nat) : List Nat :=
  recordHeaderBytes 32 36 ++ natToLE 8 id ++ natToLE 8 parent_id ++
    natToLE 8 callsite_id ++ natToLE 8 timestamp ++ [parent_kind]

/-- `SpanEnterRecord` (27 bytes). -/
def spanEnterRecordBytes (id timestamp thread_id : Nat) : List Nat :=
  recordHeaderBytes 33 27 ++ natToLE 8 id ++ natToLE 8 timestamp ++ natToLE 8 thread_id

/-- `SpanExitRecord` (19 bytes). -/
def spanExitRecordBytes (id timestamp : Nat) : List Nat :=
  recordHeaderBytes 34 19 ++ natToLE 8 id ++ natToLE 8 timestamp

/-- `SpanCloseRecord` (19 bytes). -/
def spanCloseRecordBytes (id timestamp : Nat) : List Nat :=
  recordHeaderBytes 35 19 ++ natToLE 8 id ++ natToLE 8 timestamp

/-- `SpanValueRecord` (20 bytes) followed by the value payload. -/
def spanValueRecordBytes (kind field_id span_id : Nat) (value : List Nat) : List Nat :=
  recordHeaderBytes 36 (20 + value.length) ++ [kind] ++ natToLE 8 field_id ++
    natToLE 8 span_id ++ value

/-- `Intro::new` (32 bytes): magic `TAPEFILE`, version `0.0`, chapter
size exponent, 5 reserved zero bytes, i128 `timestamp_base` (given here
as its unsigned bit pattern). -/
def introBytes (chapter_size_pot timestamp_base : Nat) : List Nat :=
  [84, 65, 80, 69, 70, 73, 76, 69] ++ [0, 0] ++ [chapter_size_pot] ++
    [0, 0, 0, 0, 0] ++ natToLE 16 timestamp_base

/-! ## Parser data model (`tracing-tape-parser/src/lib.rs`) -/

/-- `Value`: the parsed tagged union.  `f64` keeps the raw little-endian
bit pattern (`f64::from_le_bytes` is a bijection on bit patterns);
`str`/`error` keep the raw bytes (`String::from_utf8_lossy` is modelled
as the identity on the byte content). -/
inductive Value where
  | bool (b : Bool)
  | i64 (v : Int)
  | u64 (v : Nat)
  | i128 (v : Int)
  | u128 (v : Nat)
  | f64 (bits : Nat)
  | str (bytes : List Nat)
  | error (bytes : List Nat)
deriving DecidableEq, Repr

/-- `Value::parse`.  The catch-all arm of the source is
`panic!("unknown field type")`, modelled as `none`; a payload whose
length does not match the fixed-width type makes `try_into().unwrap()`
panic, also `none`. -/
def Value.parse (kind : Nat) (data : List Nat) : Option Value :=
  if kind = 0 then
    match data with
    | [] => none -- `data[0]` panics
    | b :: _ => some (.bool (b != 0))
  else if kind = 1 then
    if data.length = 8 then some (.i64 (toSigned 64 (leToNat data))) else none
  else if kind = 2 then
    if data.length = 8 then some (.u64 (leToNat data)) else none
  else if kind = 3 then
    if data.length = 16 then some (.i128 (toSigned 128 (leToNat data))) else none
  else if kind = 4 then
    if data.length = 16 then some (.u128 (leToNat data)) else none
  else if kind = 5 then
    if data.length = 8 then some (.f64 (leToNat data)) else none
  else if kind = 6 then some (.str data)
  else if kind = 7 then some (.error data)
  else none

/-- `Field { name, id }`. -/
structure Field where
  name : List Nat
  id : Nat
deriving DecidableEq, Repr

/-- `IntermediateCallsite`.  `kindCode` and `levelCode` are the decoded
`CallsiteInfo` bit fields (`kind` is 2 bits: 0 event, 1 span, 2/3 their
hint variants; `level` is 3 bits, valid range 0..4).  `cap` models
`fields.capacity()`: `Vec::with_capacity(field_count)` allocates
exactly the declared count, and `Vec::push` grows an exhausted
capacity (see `vecGrow`). -/
structure IntermediateCallsite where
  id : Nat
  kindCode : Nat
  levelCode : Nat
  name : List Nat
  target : List Nat
  module_path : List Nat
  file : Option (List Nat)
  line : Option Nat
  cap : Nat
  fields : List Field
deriving DecidableEq, Repr

/-- `IntermediateValue { value, field_id }`. -/
structure IntermediateValue where
  value : Value
  field_id : Nat
deriving DecidableEq, Repr

/-- `IntermediateEvent`.  `valueCount` models `values.capacity()` from
`Vec::with_capacity(value_count)`. -/
structure IntermediateEvent where
  timestamp : Int
  callsite_id : Nat
  valueCount : Nat
  values : List IntermediateValue
deriving DecidableEq, Repr

/-- `SpanEntrance { entered, exited, thread_id }`. -/
structure SpanEntrance where
  entered : Int
  exited : Int
  thread_id : Nat
deriving DecidableEq, Repr

/-- `IntermediateSpan`.  `values` models `HashMap<u64, Value>` as an
association list whose `insertA` replaces the value of an existing
key. -/
structure IntermediateSpan where
  id : Nat
  opened : Int
  closed : Int
  entrances : List SpanEntrance
  callsite_id : Nat
  parent_id : Nat
  values : List (Nat × Value)
deriving DecidableEq, Repr

/-- The parser's streaming state (`Intermediate`).  The petgraph
`StableGraph` is modelled by `span_nodes` (slots, `none` = removed) and
`span_edges` (parent index → child index, in insertion order). -/
structure Intermediate where
  min_timestamp : Int
  max_timestamp : Int
  intermediate_callsites : List (Nat × IntermediateCallsite)
  callsites : List IntermediateCallsite
  intermediate_events : List (Nat × IntermediateEvent)
  events : List IntermediateEvent
  span_nodes : List (Option IntermediateSpan)
  span_edges : List (Nat × Nat)
  root_nodes : List Nat
  opened_spans : List (Nat × Nat)
  threads : List (Nat × Option (List Nat))
deriving DecidableEq, Repr

/-- `Intermediate::default`: `min_timestamp = i64::MAX`,
`max_timestamp = i64::MIN`, everything else empty. -/
def Intermediate.start : Intermediate where
  min_timestamp := 2 ^ 63 - 1
  max_timestamp := -(2 ^ 63)
  intermediate_callsites := []
  callsites := []
  intermediate_events := []
  events := []
  span_nodes := []
  span_edges := []
  root_nodes := []
  opened_spans := []
  threads := []

/-- `span_graph[index]` with a panic on an invalid or vacated index. -/
def getNode (nodes : List (Option IntermediateSpan)) (idx : Nat) : Option IntermediateSpan :=
  match nodes[idx]? with
  | none => none
  | some s => s

/-- `IntermediateCallsite::parse`.  Reads the 26-byte `CallsiteRecord`
then splits the name/target/module_path/file strings off the rest of
the input (the source's `split_at` calls are *not* bounded by the
record's `len`).  `info.level().expect("invalid level")` panics for
level bits outside 0..4; `info.kind()` never fails (2-bit field). -/
def IntermediateCallsite.parse (slice : List Nat) :
    Option (IntermediateCallsite × List Nat) :=
  if slice.length < 26 then none
  else
    let len := readU16 slice 1
    let info := readU8 slice 3
    let field_count := readU16 slice 4
    let name_len := readU16 slice 6
    let target_len := readU16 slice 8
    let module_path_len := readU16 slice 10
    let file_len := readU16 slice 12
    let line := readU32 slice 14
    let cid := readU64 slice 18
    if slice.length < 26 + name_len + target_len + module_path_len + file_len then none
    else if 5 ≤ info % 8 then none
    else
      some ({ id := cid
              kindCode := info / 8 % 4
              levelCode := info % 8
              name := readBytes slice 26 name_len
              target := readBytes slice (26 + name_len) target_len
              module_path := readBytes slice (26 + name_len + target_len) module_path_len
              file :=
                if readBytes slice (26 + name_len + target_len + module_path_len) file_len = []
                then none
                else some (readBytes slice (26 + name_len + target_len + module_path_len) file_len)
              line := if line = 0 then none else some line
              cap := field_count
              fields := [] }, slice.drop len)

/-- `Intermediate::callsite`. -/
def Intermediate.callsite (st : Intermediate) (slice : List Nat) :
    Option (Intermediate × List Nat) :=
  (IntermediateCallsite.parse slice).map fun p =>
    ({ st with intermediate_callsites := insertA st.intermediate_callsites p.1.id p.1 }, p.2)

/-- The capacity of a `Vec<Field>` after one `push` at length `len`:
when the capacity is exhausted (`len = cap`), `RawVec::grow_amortized`
picks `max(2 * cap, len + 1)` and then at least `MIN_NON_ZERO_CAP`,
which is 4 for the 24-byte `Field`; otherwise the capacity is
unchanged. -/
def vecGrow (len cap : Nat) : Nat :=
  if len = cap then max (2 * cap) (max (len + 1) 4) else cap

/-- `Intermediate::callsite_field`: pops the partial callsite
(`remove(..).unwrap()`), pushes the field (growing the capacity when it
is exhausted), and promotes the callsite to `callsites` exactly when
the push fills the capacity (`fields.len() == fields.capacity()`),
otherwise reinserts it. -/
def Intermediate.callsiteField (st : Intermediate) (slice : List Nat) :
    Option (Intermediate × List Nat) :=
  if slice.length < 21 then none
  else
    let len := readU16 slice 1
    let name_len := readU16 slice 3
    let callsite_id := readU64 slice 5
    let field_id := readU64 slice 13
    if slice.length < 21 + name_len then none
    else
      match lookupA st.intermediate_callsites callsite_id with
      | none => none -- `.unwrap()`
      | some cs =>
        let cs' := { cs with
          cap := vecGrow cs.fields.length cs.cap
          fields := cs.fields ++ [{ name := readBytes slice 21 name_len, id := field_id }] }
        let st' :=
          if cs'.fields.length = cs'.cap then
            { st with intermediate_callsites := removeA st.intermediate_callsites callsite_id
                      callsites := st.callsites ++ [cs'] }
          else
            { st with intermediate_callsites :=
                insertA (removeA st.intermediate_callsites callsite_id) callsite_id cs' }
        some (st', slice.drop len)

/-- `Intermediate::event`.  Registers the thread
(`threads.entry(..).or_insert(None)`), asserts that no event is pending
on this thread, pushes the event directly when its declared value count
is zero (`values.capacity() == 0`) and otherwise parks it in
`intermediate_events`, and updates the timestamp bounds. -/
def Intermediate.event (st : Intermediate) (slice : List Nat) :
    Option (Intermediate × List Nat) :=
  if slice.length < 29 then none
  else
    let len := readU16 slice 1
    let value_count := readU16 slice 3
    let timestamp := readI64 slice 5
    let callsite_id := readU64 slice 13
    let thread_id := readU64 slice 21
    let threads' :=
      if (lookupA st.threads thread_id).isSome then st.threads
      else st.threads ++ [(thread_id, none)]
    if (lookupA st.intermediate_events thread_id).isSome then none -- `assert!`
    else
      let ev : IntermediateEvent :=
        { timestamp := timestamp, callsite_id := callsite_id,
          valueCount := value_count, values := [] }
      let st' :=
        if value_count = 0 then
          { st with threads := threads'
                    events := st.events ++ [ev]
                    min_timestamp := min st.min_timestamp timestamp
                    max_timestamp := max st.max_timestamp timestamp }
        else
          { st with threads := threads'
                    intermediate_events := insertA st.intermediate_events thread_id ev
                    min_timestamp := min st.min_timestamp timestamp
                    max_timestamp := max st.max_timestamp timestamp }
      some (st', slice.drop len)

/-- `Intermediate::event_value`: parses the value, pops the pending
event on this thread (`remove(..).unwrap()`), appends the value, and
promotes the event when the declared value count is reached
(`values.len() == values.capacity()`). -/
def Intermediate.eventValue (st : Intermediate) (slice : List Nat) :
    Option (Intermediate × List Nat) :=
  if slice.length < 20 then none
  else
    let len := readU16 slice 1
    let kind := readU8 slice 3
    let field_id := readU64 slice 4
    let thread_id := readU64 slice 12
    if len < 20 then none -- `len - size_of::<EventValueRecord>()` underflows
    else
      let value_len := len - 20
      if slice.length < 20 + value_len then none
      else
        match Value.parse kind (readBytes slice 20 value_len) with
        | none => none
        | some v =>
          match lookupA st.intermediate_events thread_id with
          | none => none -- `.unwrap()`
          | some ev =>
            let ev' := { ev with values := ev.values ++ [{ value := v, field_id := field_id }] }
            let st' :=
              if ev'.values.length = ev'.valueCount then
                { st with intermediate_events := removeA st.intermediate_events thread_id
                          events := st.events ++ [ev'] }
              else
                { st with intermediate_events :=
                    insertA (removeA st.intermediate_events thread_id) thread_id ev' }
            some (st', slice.drop len)

/-- `Intermediate::open_span`: allocates a graph node with `closed = 0`
and registers it in `opened_spans`.  Only the `SpanOpenRecord` prefix
(35 bytes) is read; the record is skipped by its own `len`, which also
accepts the 36-byte extended layout. -/
def Intermediate.openSpan (st : Intermediate) (slice : List Nat) :
    Option (Intermediate × List Nat) :=
  if slice.length < 35 then none
  else
    let len := readU16 slice 1
    let sid := readU64 slice 3
    let parent_id := readU64 slice 11
    let callsite_id := readU64 slice 19
    let timestamp := readI64 slice 27
    let span : IntermediateSpan :=
      { id := sid, opened := timestamp, closed := 0, entrances := [],
        callsite_id := callsite_id, parent_id := parent_id, values := [] }
    some ({ st with
            min_timestamp := min st.min_timestamp timestamp
            max_timestamp := max st.max_timestamp timestamp
            span_nodes := st.span_nodes ++ [some span]
            opened_spans := insertA st.opened_spans sid st.span_nodes.length },
          slice.drop len)

/-- `Intermediate::enter_span`: pushes a `SpanEntrance` with
`exited = 0` onto the span found through `opened_spans` (a missing id
panics via the `HashMap` index). -/
def Intermediate.enterSpan (st : Intermediate) (slice : List Nat) :
    Option (Intermediate × List Nat) :=
  if slice.length < 27 then none
  else
    let len := readU16 slice 1
    let sid := readU64 slice 3
    let timestamp := readI64 slice 11
    let thread_id := readU64 slice 19
    match lookupA st.opened_spans sid with
    | none => none
    | some idx =>
      match getNode st.span_nodes idx with
      | none => none
      | some span =>
        let span' := { span with entrances := span.entrances ++
          [{ entered := timestamp, exited := 0, thread_id := thread_id }] }
        some ({ st with span_nodes := st.span_nodes.set idx (some span') }, slice.drop len)

/-- `Intermediate::exit_span`.  The source parses the *enter* record
layout here (`SpanEnterRecord::ref_from_prefix`), so 27 bytes must be
available even though a `SpanExitRecord` is only 19 bytes long; it then
sets `exited` on the last entrance (`last_mut().unwrap()`). -/
def Intermediate.exitSpan (st : Intermediate) (slice : List Nat) :
    Option (Intermediate × List Nat) :=
  if slice.length < 27 then none
  else
    let len := readU16 slice 1
    let sid := readU64 slice 3
    let timestamp := readI64 slice 11
    match lookupA st.opened_spans sid with
    | none => none
    | some idx =>
      match getNode st.span_nodes idx with
      | none => none
      | some span =>
        match span.entrances.getLast? with
        | none => none -- `.unwrap()`
        | some last =>
          let span' := { span with entrances :=
            span.entrances.dropLast ++ [{ last with exited := timestamp }] }
          some ({ st with span_nodes := st.span_nodes.set idx (some span') }, slice.drop len)

/-- `Intermediate::close_span`: updates the timestamp bounds, removes
the span from `opened_spans` (`remove(..).unwrap()`), records `closed`,
and hangs the span below its (still open) parent or appends it to
`root_nodes` when `parent_id == 0`. -/
def Intermediate.closeSpan (st : Intermediate) (slice : List Nat) :
    Option (Intermediate × List Nat) :=
  if slice.length < 19 then none
  else
    let len := readU16 slice 1
    let sid := readU64 slice 3
    let timestamp := readI64 slice 11
    match lookupA st.opened_spans sid with
    | none => none -- `.unwrap()`
    | some idx =>
      match getNode st.span_nodes idx with
      | none => none
      | some span =>
        let span' := { span with closed := timestamp }
        let st' := { st with
          min_timestamp := min st.min_timestamp timestamp
          max_timestamp := max st.max_timestamp timestamp
          opened_spans := removeA st.opened_spans sid
          span_nodes := st.span_nodes.set idx (some span') }
        if span'.parent_id ≠ 0 then
          match lookupA st'.opened_spans span'.parent_id with
          | none => none -- `opened_spans[&parent_id]` panics
          | some pidx =>
            some ({ st' with span_edges := st'.span_edges ++ [(pidx, idx)] }, slice.drop len)
        else
          some ({ st' with root_nodes := st'.root_nodes ++ [idx] }, slice.drop len)

/-- `Intermediate::span_value`: parses the value and *inserts* it into
the span's `HashMap<u64, Value>` keyed by field id, replacing any
previous value for that field. -/
def Intermediate.spanValue (st : Intermediate) (slice : List Nat) :
    Option (Intermediate × List Nat) :=
  if slice.length < 20 then none
  else
    let len := readU16 slice 1
    let kind := readU8 slice 3
    let field_id := readU64 slice 4
    let span_id := readU64 slice 12
    if len < 20 then none
    else
      let value_len := len - 20
      if slice.length < 20 + value_len then none
      else
        match Value.parse kind (readBytes slice 20 value_len) with
        | none => none
        | some v =>
          match lookupA st.opened_spans span_id with
          | none => none
          | some idx =>
            match getNode st.span_nodes idx with
            | none => none
            | some span =>
              let span' := { span with values := insertA span.values field_id v }
              some ({ st with span_nodes := st.span_nodes.set idx (some span') },
                    slice.drop len)

/-- One iteration of the `Intermediate::parse` dispatch loop, on
non-empty input.  Record kinds: NOOP 0, CALLSITE 8, CALLSITE_FIELD 9,
EVENT 16 (0x10), EVENT_VALUE 17 (0x11), SPAN_OPEN 32 (0x20),
SPAN_ENTER 33, SPAN_EXIT 34, SPAN_CLOSE 35, SPAN_VALUE 36; any other
kind is skipped using the record header's `len`. -/
def parseStep (st : Intermediate) (data : List Nat) : Option (Intermediate × List Nat) :=
  match data with
  | [] => none
  | kind :: _ =>
    if kind = 0 then some (st, data.drop 1)
    else if kind = 8 then st.callsite data
    else if kind = 9 then st.callsiteField data
    else if kind = 32 then st.openSpan data
    else if kind = 33 then st.enterSpan data
    else if kind = 34 then st.exitSpan data
    else if kind = 35 then st.closeSpan data
    else if kind = 36 then st.spanValue data
    else if kind = 16 then st.event data
    else if kind = 17 then st.eventValue data
    else if data.length < 3 then none -- `RecordHeader::ref_from_prefix(..).unwrap()`
    else some (st, data.drop (readU16 data 1))

/-- The `Intermediate::parse` loop.  `fuel` bounds the number of
iterations; a record that does not advance the input (declared
`len = 0`) makes the source loop forever, modelled by fuel
exhaustion. -/
def parseRecords : Nat → Intermediate → List Nat → Option Intermediate
  | 0, _, _ => none
  | fuel + 1, st, data =>
    match data with
    | [] => some st
    | _ :: _ =>
      match parseStep st data with
      | none => none
      | some p => parseRecords fuel p.1 p.2

/-- `Intermediate::parse` on a byte slice.  One unit of fuel per input
byte plus one suffices for every terminating run of the source loop
(each iteration either consumes at least one byte or repeats a
non-advancing record, which the source never escapes). -/
def Intermediate.parse (st : Intermediate) (data : List Nat) : Option Intermediate :=
  parseRecords (data.length + 1) st data

/-! ## Finalization (`TapeData::new`) and the public model -/

/-- `Metadata` of a parsed callsite (field ids are dropped; only the
names are kept, in declaration order). -/
structure Metadata where
  levelCode : Nat
  name : List Nat
  target : List Nat
  module_path : List Nat
  file : Option (List Nat)
  line : Option Nat
  fields : List (List Nat)
deriving DecidableEq, Repr

/-- `Callsite`: an event or a span callsite. -/
inductive Callsite where
  | event (m : Metadata)
  | span (m : Metadata)
deriving DecidableEq, Repr

def Callsite.metadata : Callsite → Metadata
  | .event m => m
  | .span m => m

/-- `From<IntermediateCallsite> for Metadata`. -/
def IntermediateCallsite.toMetadata (cs : IntermediateCallsite) : Metadata :=
  { levelCode := cs.levelCode, name := cs.name, target := cs.target,
    module_path := cs.module_path, file := cs.file, line := cs.line,
    fields := cs.fields.map Field.name }

/-- `From<IntermediateCallsite> for Callsite`: a span callsite exactly
when the decoded kind equals `Kind::SPAN` (code 1; the hint variants
compare unequal). -/
def IntermediateCallsite.toCallsite (cs : IntermediateCallsite) : Callsite :=
  if cs.kindCode = 1 then .span cs.toMetadata else .event cs.toMetadata

/-- Final `Event { timestamp, callsite_index, values }`. -/
structure Event where
  timestamp : Int
  callsite_index : Nat
  values : List Value
deriving DecidableEq, Repr

/-- Final `Span { opened, closed, callsite_index, entrances, values }`. -/
structure Span where
  opened : Int
  closed : Int
  callsite_index : Nat
  entrances : List SpanEntrance
  values : List Value
deriving DecidableEq, Repr

/-- `callsite_map`: id → position in the completed-callsite list. -/
def buildCallsiteMapAux : List IntermediateCallsite → Nat → List (Nat × Nat) → List (Nat × Nat)
  | [], _, acc => acc
  | cs :: rest, i, acc => buildCallsiteMapAux rest (i + 1) (insertA acc cs.id i)

/-- `callsite_field_map` entries of one callsite:
`(callsite_id, field_id) → field position`. -/
def buildFieldMapAux1 : List Field → Nat → Nat → List ((Nat × Nat) × Nat) → List ((Nat × Nat) × Nat)
  | [], _, _, acc => acc
  | f :: rest, cid, i, acc => buildFieldMapAux1 rest cid (i + 1) (insertA acc (cid, f.id) i)

/-- `callsite_field_map` over all completed callsites. -/
def buildFieldMapAux : List IntermediateCallsite → List ((Nat × Nat) × Nat) → List ((Nat × Nat) × Nat)
  | [], acc => acc
  | cs :: rest, acc => buildFieldMapAux rest (buildFieldMapAux1 cs.fields cs.id 0 acc)

/-- The key order used by `sort_by_cached_key`: compare the positions of
the values' field ids in the declaring callsite's field list. -/
def valueKeyLE (a b : Nat × Value) : Prop := a.1 ≤ b.1

instance : DecidableRel valueKeyLE := fun a b => Nat.decLe a.1 b.1

instance : IsTotal (Nat × Value) valueKeyLE := ⟨fun a b => Nat.le_total a.1 b.1⟩

instance : IsTrans (Nat × Value) valueKeyLE := ⟨fun _ _ _ => Nat.le_trans⟩

/-- The key order of `events.sort_by_key(|event| event.timestamp)`. -/
def eventTimestampLE (a b : IntermediateEvent) : Prop := a.timestamp ≤ b.timestamp

instance : DecidableRel eventTimestampLE := fun a b => Int.decLe a.timestamp b.timestamp

instance : IsTotal IntermediateEvent eventTimestampLE := ⟨fun a b => Int.le_total a.timestamp b.timestamp⟩

instance : IsTrans IntermediateEvent eventTimestampLE := ⟨fun _ _ _ => Int.le_trans⟩

/-- Annotate an event's values with their `callsite_field_map` position
(`callsite_field_map[&(callsite_id, field_id)]`, panicking — `none` —
when the pair is absent). -/
def annotateValues (cfm : List ((Nat × Nat) × Nat)) (cid : Nat) :
    List IntermediateValue → Option (List (Nat × Value))
  | [] => some []
  | v :: rest =>
    match lookupA cfm (cid, v.field_id) with
    | none => none
    | some pos => (annotateValues cfm cid rest).map ((pos, v.value) :: ·)

/-- Annotate a span's `(field_id, value)` pairs with their field
positions. -/
def annotateSpanValues (cfm : List ((Nat × Nat) × Nat)) (cid : Nat) :
    List (Nat × Value) → Option (List (Nat × Value))
  | [] => some []
  | (fid, v) :: rest =>
    match lookupA cfm (cid, fid) with
    | none => none
    | some pos => (annotateSpanValues cfm cid rest).map ((pos, v) :: ·)

/-- Conversion of one intermediate event in `TapeData::new`: values are
stably sorted by their positions in the declaring callsite's field
list (Rust's `sort_by_cached_key` is a stable sort; `insertionSort` is
the stable sort of the same key order, hence computes the same list),
and the callsite id is replaced by its index. -/
def toFinalEvent (cmap : List (Nat × Nat)) (cfm : List ((Nat × Nat) × Nat))
    (e : IntermediateEvent) : Option Event :=
  match annotateValues cfm e.callsite_id e.values with
  | none => none
  | some keyed =>
    match lookupA cmap e.callsite_id with
    | none => none -- `callsite_map[&event.callsite_id]` panics
    | some ci =>
      some { timestamp := e.timestamp, callsite_index := ci,
             values := (List.insertionSort valueKeyLE keyed).map Prod.snd }

/-- Conversion of one intermediate span in `TapeData::new` (same value
sorting as for events; entrances are kept as collected). -/
def toFinalSpan (cmap : List (Nat × Nat)) (cfm : List ((Nat × Nat) × Nat))
    (s : IntermediateSpan) : Option Span :=
  match annotateSpanValues cfm s.callsite_id s.values with
  | none => none
  | some keyed =>
    match lookupA cmap s.callsite_id with
    | none => none
    | some ci =>
      some { opened := s.opened, closed := s.closed, callsite_index := ci,
             entrances := s.entrances,
             values := (List.insertionSort valueKeyLE keyed).map Prod.snd }

/-- `intermediate_graph.neighbors(n)`: targets of the edges out of `n`,
newest first (petgraph iterates adjacency newest-first). -/
def neighbors (edges : List (Nat × Nat)) (n : Nat) : List Nat :=
  ((edges.filter fun e => e.1 == n).map Prod.snd).reverse

/-- `intermediate_graph.remove_node(n).unwrap()`: vacate the slot and
drop all incident edges. -/
def removeNode (nodes : List (Option IntermediateSpan)) (edges : List (Nat × Nat)) (n : Nat) :
    Option (IntermediateSpan × List (Option IntermediateSpan) × List (Nat × Nat)) :=
  match getNode nodes n with
  | none => none
  | some s => some (s, nodes.set n none, edges.filter fun e => !(e.1 == n) && !(e.2 == n))

/-- `SpanMapping { old_children, new_parent }`. -/
structure SpanMapping where
  old_children : List Nat
  new_parent : Nat
deriving DecidableEq, Repr

/-- The root loop of `TapeData::new`: convert each root span, collect
its children before removal, and stack a `SpanMapping` when it has
children.  Returns the remaining graph, the converted spans, the new
root indices and the worklist (head = top of stack). -/
def processRoots (cmap : List (Nat × Nat)) (cfm : List ((Nat × Nat) × Nat)) :
    List Nat → List (Option IntermediateSpan) × List (Nat × Nat) →
    List Span → List Nat → List SpanMapping →
    Option ((List (Option IntermediateSpan) × List (Nat × Nat)) × List Span × List Nat × List SpanMapping)
  | [], g, spansAcc, rootsAcc, ws => some (g, spansAcc, rootsAcc, ws)
  | n :: rest, (nodes, edges), spansAcc, rootsAcc, ws =>
    let children := neighbors edges n
    match removeNode nodes edges n with
    | none => none
    | some (s, nodes', edges') =>
      match toFinalSpan cmap cfm s with
      | none => none
      | some fs =>
        let idx := spansAcc.length
        let ws' := if children.isEmpty then ws
                   else { old_children := children, new_parent := idx } :: ws
        processRoots cmap cfm rest (nodes', edges') (spansAcc ++ [fs]) (rootsAcc ++ [idx]) ws'

/-- The inner `for child in children` loop of the worklist phase:
convert each child, connect it to its converted parent, and stack a
mapping when it has children of its own. -/
def processChildList (cmap : List (Nat × Nat)) (cfm : List ((Nat × Nat) × Nat)) :
    List Nat → Nat → List (Option IntermediateSpan) × List (Nat × Nat) →
    List Span → List (Nat × Nat) → List SpanMapping →
    Option ((List (Option IntermediateSpan) × List (Nat × Nat)) × List Span × List (Nat × Nat) × List SpanMapping)
  | [], _, g, spansAcc, edgesAcc, ws => some (g, spansAcc, edgesAcc, ws)
  | c :: rest, parent, (nodes, edges), spansAcc, edgesAcc, ws =>
    let children := neighbors edges c
    match removeNode nodes edges c with
    | none => none
    | some (s, nodes', edges') =>
      match toFinalSpan cmap cfm s with
      | none => none
      | some fs =>
        let idx := spansAcc.length
        let ws' := if children.isEmpty then ws
                   else { old_children := children, new_parent := idx } :: ws
        processChildList cmap cfm rest parent (nodes', edges')
          (spansAcc ++ [fs]) (edgesAcc ++ [(parent, idx)]) ws'

/-- The `while let Some(mapping) = nodes_to_process.pop()` loop.  Each
iteration removes at least one graph node, so one unit of fuel per node
plus one suffices. -/
def drainWorklist (cmap : List (Nat × Nat)) (cfm : List ((Nat × Nat) × Nat)) :
    Nat → List (Option IntermediateSpan) × List (Nat × Nat) → List SpanMapping →
    List Span → List (Nat × Nat) → Option (List Span × List (Nat × Nat))
  | 0, _, _, _, _ => none
  | _ + 1, _, [], spansAcc, edgesAcc => some (spansAcc, edgesAcc)
  | fuel + 1, g, m :: ws, spansAcc, edgesAcc =>
    match processChildList cmap cfm m.old_children m.new_parent g spansAcc edgesAcc ws with
    | none => none
    | some (g', spansAcc', edgesAcc', ws') =>
      drainWorklist cmap cfm fuel g' ws' spansAcc' edgesAcc'

/-- `events.into_iter().map(..).collect()` with a panicking body:
`mapOpt f l` is `some` of the mapped list when `f` succeeds on every
element and `none` as soon as one application panics. -/
def mapOpt {A B : Type} (f : A → Option B) : List A → Option (List B)
  | [] => some []
  | a :: l =>
    match f a with
    | none => none
    | some b => (mapOpt f l).map (b :: ·)

/-- The final reconstructed model (`TapeData`). -/
structure TapeData where
  min_timestamp : Int
  max_timestamp : Int
  callsites : List Callsite
  events : List Event
  spans : List Span
  span_edges : List (Nat × Nat)
  root_spans : List Nat
  threads : List (Nat × Option (List Nat))
deriving DecidableEq, Repr

/-- `TapeData::new`: build the callsite maps, sort the events by
timestamp (stable), convert each event (values reordered to callsite
field order), then materialize exactly the spans reachable from the
closed roots by the worklist traversal. -/
def TapeData.new (ist : Intermediate) : Option TapeData :=
  let cmap := buildCallsiteMapAux ist.callsites 0 []
  let cfm := buildFieldMapAux ist.callsites []
  let callsites := ist.callsites.map IntermediateCallsite.toCallsite
  match mapOpt (toFinalEvent cmap cfm) (List.insertionSort eventTimestampLE ist.events) with
  | none => none
  | some events =>
    match processRoots cmap cfm ist.root_nodes (ist.span_nodes, ist.span_edges) [] [] [] with
    | none => none
    | some (g, spansAcc, rootsAcc, ws) =>
      match drainWorklist cmap cfm (ist.span_nodes.length + 1) g ws spansAcc [] with
      | none => none
      | some (spans, edgesAcc) =>
        some { min_timestamp := ist.min_timestamp, max_timestamp := ist.max_timestamp,
               callsites := callsites, events := events, spans := spans,
               span_edges := edgesAcc, root_spans := rootsAcc, threads := ist.threads }

/-- The parsed intro header. -/
structure Intro where
  magic : List Nat
  version_major : Nat
  version_minor : Nat
  chapter_size_pot : Nat
  timestamp_base : Int
deriving DecidableEq, Repr

/-- `Intro::read_from_prefix(data).unwrap()`: a plain `zerocopy` read of
the 32-byte header.  No magic or version check is performed. -/
def Intro.read (data : List Nat) : Option Intro :=
  if data.length < 32 then none
  else
    some { magic := readBytes data 0 8
           version_major := readU8 data 8
           version_minor := readU8 data 9
           chapter_size_pot := readU8 data 10
           timestamp_base := readI128 data 16 }

/-- `Tape { intro, data }`. -/
structure Tape where
  intro : Intro
  data : TapeData
deriving DecidableEq, Repr

/-- `Tape::parse`: read the intro, run the record loop on the rest of
the input, finalize. -/
def Tape.parse (data : List Nat) : Option Tape :=
  match Intro.read data with
  | none => none
  | some intro =>
    match Intermediate.parse Intermediate.start (data.drop 32) with
    | none => none
    | some ist => (TapeData.new ist).map fun d => { intro := intro, data := d }

/-- `Tape::time_range`: the inclusive absolute range
`timestamp_base + min ..= timestamp_base + max`, as a pair. -/
def Tape.time_range (t : Tape) : Int × Int :=
  (t.intro.timestamp_base + t.data.min_timestamp,
   t.intro.timestamp_base + t.data.max_timestamp)

def Tape.events (t : Tape) : List Event := t.data.events

def Tape.callsites (t : Tape) : List Callsite := t.data.callsites

def Tape.spans (t : Tape) : List Span := t.data.spans

def Tape.root_spans (t : Tape) : List Nat := t.data.root_spans

def Tape.threads (t : Tape) : List (Nat × Option (List Nat)) := t.data.threads

/-! ## Concrete tapes and producer-side specifications used by the
theorems below.

`rtPrelude` is the byte image of one `register_callsite` call: a
`CALLSITE` record (id 1, span kind, level trace, one field, name `"a"`,
empty target/module_path/file, no line) followed by its single
`CALLSITE_FIELD` record (field id 2, name `"n"`). -/

def rtPrelude : List Nat :=
  callsiteRecordBytes 27 8 1 1 [97] [] [] [] 0 ++ callsiteFieldRecordBytes 1 2 [110]

/-- The partial callsite right after the `CALLSITE` record of
`rtPrelude` is processed. -/
def rtCallsitePartial : IntermediateCallsite :=
  { id := 1, kindCode := 1, levelCode := 0, name := [97], target := [],
    module_path := [], file := none, line := none, cap := 1, fields := [] }

/-- The completed callsite after the `CALLSITE_FIELD` record of
`rtPrelude` is processed. -/
def rtCallsite : IntermediateCallsite :=
  { rtCallsitePartial with fields := [{ name := [110], id := 2 }] }

/-- Parser state after the prelude: one completed callsite. -/
def rtState1 : Intermediate :=
  { Intermediate.start with callsites := [rtCallsite] }

/-- One producer `on_event` call with a single u64 field value:
`(timestamp_bits, thread_id, value)` becomes an `EVENT` record
(value count 1, callsite 1) followed by one `EVENT_VALUE` record
(u64 kind, field 2). -/
def rtEventPair (e : Nat × Nat × Nat) : List Nat :=
  eventRecordBytes 1 e.1 1 e.2.1 ++ eventValueRecordBytes 2 2 e.2.1 (natToLE 8 e.2.2)

/-- Serialization of a finite sequence of such producer calls. -/
def rtEventsBytes : List (Nat × Nat × Nat) → List Nat
  | [] => []
  | e :: rest => rtEventPair e ++ rtEventsBytes rest

/-- The tape produced by one `register_callsite` call followed by the
given sequence of `on_event` calls (single chapter, no padding). -/
def roundTripTape (S : List (Nat × Nat × Nat)) : List Nat :=
  introBytes 20 0 ++ rtPrelude ++ rtEventsBytes S

/-- The intermediate event the parser accumulates for one producer
call of `rtEventPair`. -/
def rtIntermediate (e : Nat × Nat × Nat) : IntermediateEvent :=
  { timestamp := toSigned 64 e.1, callsite_id := 1, valueCount := 1,
    values := [{ value := .u64 e.2.2, field_id := 2 }] }

/-- The parsed event the producer call `(ts, tid, val)` should yield:
its timestamp, the index of the declaring callsite, and its values in
callsite field order.  (The parsed `Event` has no thread-id field.) -/
def emittedEvent (e : Nat × Nat × Nat) : Event :=
  { timestamp := toSigned 64 e.1, callsite_index := 0, values := [.u64 e.2.2] }

/-- Conversion of an intermediate event with the callsite of
`rtPrelude` (used to commute sorting and conversion). -/
def convEvent (ie : IntermediateEvent) : Event :=
  { timestamp := ie.timestamp, callsite_index := 0,
    values := ie.values.map IntermediateValue.value }

/-- Timestamp order on parsed events. -/
def finalEventLE (a b : Event) : Prop := a.timestamp ≤ b.timestamp

instance : DecidableRel finalEventLE := fun a b => Int.decLe a.timestamp b.timestamp

instance : IsTotal Event finalEventLE := ⟨fun a b => Int.le_total a.timestamp b.timestamp⟩

instance : IsTrans Event finalEventLE := ⟨fun _ _ _ => Int.le_trans⟩

/-- A tape with one span that is opened at timestamp bits `o` and
closed at timestamp bits `c`. -/
def closedSpanTape (o c : Nat) : List Nat :=
  introBytes 20 0 ++ rtPrelude ++ spanOpenRecord2Bytes 1 0 0 1 o ++ spanCloseRecordBytes 1 c

/-- A tape whose only span is opened (timestamp bits `o`) and never
closed. -/
def openOnlySpanTape (o : Nat) : List Nat :=
  introBytes 20 0 ++ rtPrelude ++ spanOpenRecord2Bytes 1 0 0 1 o

/-- A tape with a span closed before it was opened (open at 5, close at
3) followed by a second span that is opened at 0 and never closed. -/
def unclosedSpanTape : List Nat :=
  closedSpanTape 5 3 ++ spanOpenRecord2Bytes 2 0 0 1 0

/-- A tape with two `SPAN_VALUE` records for the same span and field
(payloads `v1` then `v2`) and one event carrying two `EVENT_VALUE`
records for the same field (payloads `v1` then `v2`). -/
def dupTape (v1 v2 : Nat) : List Nat :=
  introBytes 20 0 ++ rtPrelude ++ spanOpenRecord2Bytes 1 0 0 1 5 ++
    spanValueRecordBytes 2 2 1 (natToLE 8 v1) ++
    spanValueRecordBytes 2 2 1 (natToLE 8 v2) ++
    spanCloseRecordBytes 1 9 ++
    eventRecordBytes 2 5 1 3 ++
    eventValueRecordBytes 2 2 3 (natToLE 8 v1) ++
    eventValueRecordBytes 2 2 3 (natToLE 8 v2)

/-- A tape with a single zero-value event on thread `tid`. -/
def singleEventTape (tid : Nat) : List Nat :=
  introBytes 20 0 ++ rtPrelude ++ eventRecordBytes 0 5 1 tid

/-- A tape whose event value record carries the unknown value kind 99. -/
def unknownValueKindTape : List Nat :=
  introBytes 20 0 ++ rtPrelude ++ eventRecordBytes 1 5 1 3 ++
    eventValueRecordBytes 99 2 3 (natToLE 8 11)

/-- A 32-byte intro whose magic is not `TAPEFILE` and whose version
major byte is 9. -/
def badIntroTape : List Nat :=
  [255, 255, 255, 255, 255, 255, 255, 255] ++ [9, 7] ++ [20] ++ [0, 0, 0, 0, 0] ++ natToLE 16 0

/-- A tape containing one well-formed `CALLSITE` record that declares
zero fields (and nothing else). -/
def zeroFieldCallsiteTape : List Nat :=
  introBytes 20 0 ++ callsiteRecordBytes 26 0 0 5 [] [] [] [] 0

/-- The zero-field `CALLSITE` record followed by four spurious
`CALLSITE_FIELD` records for it: the first push grows the exhausted
capacity from 0 to 4, and the fourth push fills it. -/
def zeroFieldPromotedTape : List Nat :=
  zeroFieldCallsiteTape ++ callsiteFieldRecordBytes 5 1 [] ++
    callsiteFieldRecordBytes 5 2 [] ++ callsiteFieldRecordBytes 5 3 [] ++
    callsiteFieldRecordBytes 5 4 []

/-- A finished intermediate state with one closed span (two values for
field 2, last one `u64 22`) and one event (values `u64 11` then
`u64 22` for field 2), used to witness the value-ordering property. -/
def c5State : Intermediate :=
  { Intermediate.start with
    min_timestamp := 5
    max_timestamp := 9
    callsites := [rtCallsite]
    events := [{ timestamp := 5, callsite_id := 1, valueCount := 2,
                 values := [{ value := .u64 11, field_id := 2 },
                            { value := .u64 22, field_id := 2 }] }]
    span_nodes := [some { id := 1, opened := 5, closed := 9, entrances := [],
                          callsite_id := 1, parent_id := 0, values := [(2, .u64 22)] }]
    root_nodes := [0]
    threads := [(3, none)] }

/-- The finalized model of `c5State`. -/
def c5Data : TapeData :=
  { min_timestamp := 5, max_timestamp := 9
    callsites := [rtCallsite.toCallsite]
    events := [{ timestamp := 5, callsite_index := 0, values := [.u64 11, .u64 22] }]
    spans := [{ opened := 5, closed := 9, callsite_index := 0, entrances := [],
                values := [.u64 22] }]
    span_edges := [], root_spans := [0], threads := [(3, none)] }

/-! ## Helper lemmas -/

lemma length_natToLE (k n : Nat) : (natToLE k n).length = k := by
  induction k generalizing n with
  | zero => rfl
  | succ k ih => simp [natToLE, ih]

lemma leToNat_natToLE (k n : Nat) : leToNat (natToLE k n) = n % 2 ^ (8 * k) := by
  induction k generalizing n with
  | zero => simp [natToLE, leToNat, Nat.mod_one]
  | succ k ih =>
    have h2 : (2 : Nat) ^ (8 * (k + 1)) = 256 * 2 ^ (8 * k) := by
      rw [Nat.mul_succ, pow_add]
      ring
    rw [natToLE, leToNat, ih, h2, Nat.mod_mul]

lemma leToNat_singleton (b : Nat) : leToNat [b] = b := by
  simp [leToNat]

lemma readBytes_cons_skip (b : Nat) (l : List Nat) (off len : Nat) (h : 0 < off) :
    readBytes (b :: l) off len = readBytes l (off - 1) len := by
  obtain ⟨k, rfl⟩ : ∃ k, off = k + 1 := ⟨off - 1, by omega⟩
  simp [readBytes]

lemma readBytes_append_skip (pre l : List Nat) (off len : Nat) (h : pre.length ≤ off) :
    readBytes (pre ++ l) off len = readBytes l (off - pre.length) len := by
  obtain ⟨k, rfl⟩ : ∃ k, off = pre.length + k := ⟨off - pre.length, by omega⟩
  simp [readBytes, List.drop_append]

lemma readBytes_append_here (mid post : List Nat) (len : Nat) (h : mid.length = len) :
    readBytes (mid ++ post) 0 len = mid := by
  simp [readBytes, List.take_left' h]

lemma readBytes_cons_zero_one (b : Nat) (l : List Nat) : readBytes (b :: l) 0 1 = [b] := rfl

lemma drop_cons_skip (b : Nat) (l : List Nat) (n : Nat) (h : 0 < n) :
    (b :: l).drop n = l.drop (n - 1) := by
  obtain ⟨k, rfl⟩ : ∃ k, n = k + 1 := ⟨n - 1, by omega⟩
  simp

lemma drop_append_skip (pre l : List Nat) (n : Nat) (h : pre.length ≤ n) :
    (pre ++ l).drop n = l.drop (n - pre.length) := by
  obtain ⟨k, rfl⟩ : ∃ k, n = pre.length + k := ⟨n - pre.length, by omega⟩
  simp [List.drop_append]

/-- One unfolding of the record loop when a dispatch step is known. -/
lemma parseRecords_step (fuel : Nat) (st : Intermediate) (data : List Nat) (p)
    (hne : data ≠ []) (hstep : parseStep st data = some p) :
    parseRecords (fuel + 1) st data = parseRecords fuel p.1 p.2 := by
  cases data with
  | nil => exact absurd rfl hne
  | cons b l => simp only [parseRecords, hstep]

/-- The record loop's result does not depend on the fuel, provided
there is enough of it. -/
lemma parseRecords_mono :
    ∀ (fuel fuel' : Nat) (st : Intermediate) (data : List Nat) (st' : Intermediate),
      parseRecords fuel st data = some st' → fuel ≤ fuel' →
      parseRecords fuel' st data = some st'
  | 0, _, _, _, _, h, _ => Option.noConfusion h
  | fuel + 1, fuel' + 1, st, data, st', h, hle => by
    cases data with
    | nil =>
      simp only [parseRecords] at h ⊢
      exact h
    | cons b l =>
      simp only [parseRecords] at h ⊢
      cases hstep : parseStep st (b :: l) with
      | none => rw [hstep] at h; exact Option.noConfusion h
      | some p =>
        rw [hstep] at h
        exact parseRecords_mono fuel fuel' p.1 p.2 st' h (by omega)

/-- Evaluation of `open_span` on the byte image of a `SpanOpenRecord2`. -/
lemma openSpan_eval (st : Intermediate) (sid pk pid cid ts : Nat) (rest : List Nat)
    (hsid : sid < 2 ^ 64) (hpid : pid < 2 ^ 64) (hcid : cid < 2 ^ 64) (hts : ts < 2 ^ 64) :
    st.openSpan (spanOpenRecord2Bytes sid pk pid cid ts ++ rest) =
      some ({ st with
              min_timestamp := min st.min_timestamp (toSigned 64 ts)
              max_timestamp := max st.max_timestamp (toSigned 64 ts)
              span_nodes := st.span_nodes ++ [some
                { id := sid, opened := toSigned 64 ts, closed := 0, entrances := [],
                  callsite_id := cid, parent_id := pid, values := [] }]
              opened_spans := insertA st.opened_spans sid st.span_nodes.length }, rest) := by
  have hB : spanOpenRecord2Bytes sid pk pid cid ts ++ rest
      = 32 :: (natToLE 2 36 ++ (natToLE 8 sid ++ (natToLE 8 pid ++ (natToLE 8 cid ++
          (natToLE 8 ts ++ pk :: rest))))) := by
    simp [spanOpenRecord2Bytes, recordHeaderBytes]
  have h1 : sid % 2 ^ 64 = sid := Nat.mod_eq_of_lt hsid
  have h2 : pid % 2 ^ 64 = pid := Nat.mod_eq_of_lt hpid
  have h3 : cid % 2 ^ 64 = cid := Nat.mod_eq_of_lt hcid
  have h4 : ts % 2 ^ 64 = ts := Nat.mod_eq_of_lt hts
  norm_num at h1 h2 h3 h4
  rw [hB, Intermediate.openSpan]
  rw [if_neg (by simp [length_natToLE]; omega)]
  simp only [readU16, readU64, readI64]
  simp [readBytes_cons_skip, readBytes_append_skip, readBytes_append_here,
    drop_cons_skip, drop_append_skip, length_natToLE, leToNat_natToLE,
    Nat.mod_eq_of_lt h1, Nat.mod_eq_of_lt h2, Nat.mod_eq_of_lt h3, Nat.mod_eq_of_lt h4]

lemma readBytes_len_zero (l : List Nat) (off : Nat) : readBytes l off 0 = [] := by
  simp [readBytes]

/-- Evaluation of `close_span` on a `SpanCloseRecord` for a root span
(`parent_id = 0`) that is currently open at graph index `idx`. -/
lemma closeSpan_eval (st : Intermediate) (sid ts : Nat) (rest : List Nat)
    (idx : Nat) (span : IntermediateSpan)
    (hsid : sid < 2 ^ 64) (hts : ts < 2 ^ 64)
    (hlook : lookupA st.opened_spans sid = some idx)
    (hget : getNode st.span_nodes idx = some span)
    (hpar : span.parent_id = 0) :
    st.closeSpan (spanCloseRecordBytes sid ts ++ rest) =
      some ({ st with
              min_timestamp := min st.min_timestamp (toSigned 64 ts)
              max_timestamp := max st.max_timestamp (toSigned 64 ts)
              opened_spans := removeA st.opened_spans sid
              span_nodes := st.span_nodes.set idx (some { span with closed := toSigned 64 ts })
              root_nodes := st.root_nodes ++ [idx] }, rest) := by
  have hB : spanCloseRecordBytes sid ts ++ rest
      = 35 :: (natToLE 2 19 ++ (natToLE 8 sid ++ (natToLE 8 ts ++ rest))) := by
    simp [spanCloseRecordBytes, recordHeaderBytes]
  have h1 : sid % 2 ^ 64 = sid := Nat.mod_eq_of_lt hsid
  have h4 : ts % 2 ^ 64 = ts := Nat.mod_eq_of_lt hts
  norm_num at h1 h4
  rw [hB, Intermediate.closeSpan]
  rw [if_neg (by simp [length_natToLE]; omega)]
  simp only [readU16, readU64, readI64]
  simp [readBytes_cons_skip, readBytes_append_skip, readBytes_append_here,
    drop_cons_skip, drop_append_skip, length_natToLE, leToNat_natToLE,
    Nat.mod_eq_of_lt h1, Nat.mod_eq_of_lt h4, hlook, hget, hpar]

/-- Evaluation of `event` on an `EventRecord` when no event is pending
on the record's thread. -/
lemma event_eval (st : Intermediate) (count ts cid tid : Nat) (rest : List Nat)
    (hcount : count < 2 ^ 16) (hts : ts < 2 ^ 64) (hcid : cid < 2 ^ 64) (htid : tid < 2 ^ 64)
    (hpend : lookupA st.intermediate_events tid = none) :
    st.event (eventRecordBytes count ts cid tid ++ rest) =
      some ((if count = 0 then
        { st with
          threads := if (lookupA st.threads tid).isSome then st.threads
                     else st.threads ++ [(tid, none)]
          events := st.events ++ [{ timestamp := toSigned 64 ts, callsite_id := cid,
                                    valueCount := count, values := [] }]
          min_timestamp := min st.min_timestamp (toSigned 64 ts)
          max_timestamp := max st.max_timestamp (toSigned 64 ts) }
      else
        { st with
          threads := if (lookupA st.threads tid).isSome then st.threads
                     else st.threads ++ [(tid, none)]
          intermediate_events := insertA st.intermediate_events tid
            { timestamp := toSigned 64 ts, callsite_id := cid, valueCount := count, values := [] }
          min_timestamp := min st.min_timestamp (toSigned 64 ts)
          max_timestamp := max st.max_timestamp (toSigned 64 ts) }), rest) := by
  have hB : eventRecordBytes count ts cid tid ++ rest
      = 16 :: (natToLE 2 29 ++ (natToLE 2 count ++ (natToLE 8 ts ++ (natToLE 8 cid ++
          (natToLE 8 tid ++ rest))))) := by
    simp [eventRecordBytes, recordHeaderBytes]
  have h0 : count % 2 ^ 16 = count := Nat.mod_eq_of_lt hcount
  have h1 : ts % 2 ^ 64 = ts := Nat.mod_eq_of_lt hts
  have h2 : cid % 2 ^ 64 = cid := Nat.mod_eq_of_lt hcid
  have h3 : tid % 2 ^ 64 = tid := Nat.mod_eq_of_lt htid
  norm_num at h0 h1 h2 h3
  rw [hB, Intermediate.event]
  rw [if_neg (by simp [length_natToLE]; omega)]
  simp only [readU16, readU64, readI64]
  simp [readBytes_cons_skip, readBytes_append_skip, readBytes_append_here,
    drop_cons_skip, drop_append_skip, length_natToLE, leToNat_natToLE,
    Nat.mod_eq_of_lt h0, Nat.mod_eq_of_lt h1, Nat.mod_eq_of_lt h2, Nat.mod_eq_of_lt h3,
    hpend]

/-- Evaluation of `event_value` on an `EventValueRecord` with a u64
payload, when an event is pending on the record's thread. -/
lemma eventValue_eval (st : Intermediate) (fid tid v : Nat) (rest : List Nat)
    (ev : IntermediateEvent)
    (hfid : fid < 2 ^ 64) (htid : tid < 2 ^ 64) (hv : v < 2 ^ 64)
    (hpend : lookupA st.intermediate_events tid = some ev) :
    st.eventValue (eventValueRecordBytes 2 fid tid (natToLE 8 v) ++ rest) =
      some ((if ev.values.length + 1 = ev.valueCount then
        { st with
          intermediate_events := removeA st.intermediate_events tid
          events := st.events ++ [{ ev with values := ev.values ++
            [{ value := .u64 v, field_id := fid }] }] }
      else
        { st with
          intermediate_events := insertA (removeA st.intermediate_events tid) tid
            { ev with values := ev.values ++ [{ value := .u64 v, field_id := fid }] } }), rest) := by
  have hB : eventValueRecordBytes 2 fid tid (natToLE 8 v) ++ rest
      = 17 :: (natToLE 2 28 ++ (2 :: (natToLE 8 fid ++ (natToLE 8 tid ++
          (natToLE 8 v ++ rest))))) := by
    simp [eventValueRecordBytes, recordHeaderBytes, length_natToLE]
  have h1 : fid % 2 ^ 64 = fid := Nat.mod_eq_of_lt hfid
  have h2 : tid % 2 ^ 64 = tid := Nat.mod_eq_of_lt htid
  have h3 : v % 2 ^ 64 = v := Nat.mod_eq_of_lt hv
  norm_num at h1 h2 h3
  rw [hB, Intermediate.eventValue]
  rw [if_neg (by simp [length_natToLE]; omega)]
  simp only [readU16, readU8, readU64]
  simp [readBytes_cons_skip, readBytes_append_skip, readBytes_append_here,
    readBytes_cons_zero_one, leToNat_singleton,
    drop_cons_skip, drop_append_skip, length_natToLE, leToNat_natToLE,
    Nat.mod_eq_of_lt h1, Nat.mod_eq_of_lt h2, Nat.mod_eq_of_lt h3,
    hpend, Value.parse]
  omega

/-- Evaluation of `span_value` on a `SpanValueRecord` with a u64
payload, for a span open at graph index `idx`. -/
lemma spanValue_eval (st : Intermediate) (fid sid v : Nat) (rest : List Nat)
    (idx : Nat) (span : IntermediateSpan)
    (hfid : fid < 2 ^ 64) (hsid : sid < 2 ^ 64) (hv : v < 2 ^ 64)
    (hlook : lookupA st.opened_spans sid = some idx)
    (hget : getNode st.span_nodes idx = some span) :
    st.spanValue (spanValueRecordBytes 2 fid sid (natToLE 8 v) ++ rest) =
      some ({ st with
              span_nodes := st.span_nodes.set idx
                (some { span with values := insertA span.values fid (.u64 v) }) }, rest) := by
  have hB : spanValueRecordBytes 2 fid sid (natToLE 8 v) ++ rest
      = 36 :: (natToLE 2 28 ++ (2 :: (natToLE 8 fid ++ (natToLE 8 sid ++
          (natToLE 8 v ++ rest))))) := by
    simp [spanValueRecordBytes, recordHeaderBytes, length_natToLE]
  have h1 : fid % 2 ^ 64 = fid := Nat.mod_eq_of_lt hfid
  have h2 : sid % 2 ^ 64 = sid := Nat.mod_eq_of_lt hsid
  have h3 : v % 2 ^ 64 = v := Nat.mod_eq_of_lt hv
  norm_num at h1 h2 h3
  rw [hB, Intermediate.spanValue]
  rw [if_neg (by simp [length_natToLE]; omega)]
  simp only [readU16, readU8, readU64]
  simp [readBytes_cons_skip, readBytes_append_skip, readBytes_append_here,
    readBytes_cons_zero_one, leToNat_singleton,
    drop_cons_skip, drop_append_skip, length_natToLE, leToNat_natToLE,
    Nat.mod_eq_of_lt h1, Nat.mod_eq_of_lt h2, Nat.mod_eq_of_lt h3,
    hlook, hget, Value.parse]
  omega

/-- Evaluation of `callsite` on the concrete `CALLSITE` record of
`rtPrelude` (id 1, one field, name `"a"`). -/
lemma callsite_eval_rt (st : Intermediate) (rest : List Nat) :
    st.callsite (callsiteRecordBytes 27 8 1 1 [97] [] [] [] 0 ++ rest) =
      some ({ st with
              intermediate_callsites :=
                insertA st.intermediate_callsites 1 rtCallsitePartial }, rest) := by
  have hB : callsiteRecordBytes 27 8 1 1 [97] [] [] [] 0 ++ rest
      = [8, 27, 0, 8, 1, 0, 1, 0, 0, 0, 0, 0, 0, 0, 0, 0, 0, 0, 1, 0, 0, 0,
         0, 0, 0, 0, 97] ++ rest := by
    simp [callsiteRecordBytes, recordHeaderBytes, natToLE]
  rw [hB, Intermediate.callsite, IntermediateCallsite.parse]
  rw [if_neg (by simp)]
  simp only [readU16, readU8, readU32, readU64]
  rw [if_neg (by simp [readBytes_cons_skip, readBytes_append_here, leToNat])]
  simp [readBytes_cons_skip, readBytes_append_skip, readBytes_append_here,
    readBytes_cons_zero_one, leToNat_singleton, readBytes_len_zero,
    drop_cons_skip, drop_append_skip, leToNat, readBytes, rtCallsitePartial]

/-- Evaluation of `callsite_field` on the concrete `CALLSITE_FIELD`
record of `rtPrelude` (callsite 1, field id 2, name `"n"`), with the
partial callsite of `rtPrelude` pending under id 1: the push fills the
capacity 1 exactly, so the callsite is promoted. -/
lemma callsiteField_eval_rt (st : Intermediate) (rest : List Nat)
    (hlook : lookupA st.intermediate_callsites 1 = some rtCallsitePartial) :
    st.callsiteField (callsiteFieldRecordBytes 1 2 [110] ++ rest) =
      some ({ st with
              intermediate_callsites := removeA st.intermediate_callsites 1
              callsites := st.callsites ++ [rtCallsite] }, rest) := by
  have hB : callsiteFieldRecordBytes 1 2 [110] ++ rest
      = [9, 22, 0, 1, 0, 1, 0, 0, 0, 0, 0, 0, 0, 2, 0, 0, 0, 0, 0, 0, 0, 110] ++ rest := by
    simp [callsiteFieldRecordBytes, recordHeaderBytes, natToLE]
  rw [hB, Intermediate.callsiteField]
  rw [if_neg (by simp)]
  simp only [readU16, readU64]
  simp [readBytes_cons_skip, readBytes_append_skip, readBytes_append_here,
    readBytes_cons_zero_one, leToNat_singleton, readBytes_len_zero,
    drop_cons_skip, drop_append_skip, leToNat, readBytes, hlook,
    vecGrow, rtCallsitePartial, rtCallsite]

/-- One record-loop step on the `CALLSITE` record of `rtPrelude`. -/
lemma parseRecords_rt_callsite (fuel : Nat) (st : Intermediate) (rest : List Nat) :
    parseRecords (fuel + 1) st (callsiteRecordBytes 27 8 1 1 [97] [] [] [] 0 ++ rest) =
      parseRecords fuel
        { st with
          intermediate_callsites :=
            insertA st.intermediate_callsites 1 rtCallsitePartial } rest := by
  have hne : callsiteRecordBytes 27 8 1 1 [97] [] [] [] 0 ++ rest ≠ [] := by
    simp [callsiteRecordBytes, recordHeaderBytes]
  have hd : parseStep st (callsiteRecordBytes 27 8 1 1 [97] [] [] [] 0 ++ rest)
      = st.callsite (callsiteRecordBytes 27 8 1 1 [97] [] [] [] 0 ++ rest) := by
    rw [show callsiteRecordBytes 27 8 1 1 [97] [] [] [] 0 ++ rest
        = [8, 27, 0, 8, 1, 0, 1, 0, 0, 0, 0, 0, 0, 0, 0, 0, 0, 0, 1, 0, 0, 0,
           0, 0, 0, 0, 97] ++ rest
        from by simp [callsiteRecordBytes, recordHeaderBytes, natToLE]]
    norm_num [parseStep]
  rw [parseRecords_step fuel st _ _ hne (hd.trans (callsite_eval_rt st rest))]

/-- One record-loop step on the `CALLSITE_FIELD` record of `rtPrelude`. -/
lemma parseRecords_rt_callsiteField (fuel : Nat) (st : Intermediate) (rest : List Nat)
    (hlook : lookupA st.intermediate_callsites 1 = some rtCallsitePartial) :
    parseRecords (fuel + 1) st (callsiteFieldRecordBytes 1 2 [110] ++ rest) =
      parseRecords fuel
        { st with
          intermediate_callsites := removeA st.intermediate_callsites 1
          callsites := st.callsites ++ [rtCallsite] } rest := by
  have hne : callsiteFieldRecordBytes 1 2 [110] ++ rest ≠ [] := by
    simp [callsiteFieldRecordBytes, recordHeaderBytes]
  have hd : parseStep st (callsiteFieldRecordBytes 1 2 [110] ++ rest)
      = st.callsiteField (callsiteFieldRecordBytes 1 2 [110] ++ rest) := by
    rw [show callsiteFieldRecordBytes 1 2 [110] ++ rest
        = [9, 22, 0, 1, 0, 1, 0, 0, 0, 0, 0, 0, 0, 2, 0, 0, 0, 0, 0, 0, 0, 110] ++ rest
        from by simp [callsiteFieldRecordBytes, recordHeaderBytes, natToLE]]
    norm_num [parseStep]
  rw [parseRecords_step fuel st _ _ hne (hd.trans (callsiteField_eval_rt st rest hlook))]

/-- The whole `rtPrelude` (one `register_callsite` call) from the
initial parser state: the callsite is completed and promoted. -/
lemma parseRecords_rtPrelude (fuel : Nat) (rest : List Nat) :
    parseRecords (fuel + 2) Intermediate.start (rtPrelude ++ rest) =
      parseRecords fuel rtState1 rest := by
  have hsplit : rtPrelude ++ rest
      = callsiteRecordBytes 27 8 1 1 [97] [] [] [] 0 ++
        (callsiteFieldRecordBytes 1 2 [110] ++ rest) := by
    simp [rtPrelude]
  rw [hsplit, show fuel + 2 = (fuel + 1) + 1 from rfl, parseRecords_rt_callsite,
    parseRecords_rt_callsiteField fuel
      { Intermediate.start with
        intermediate_callsites :=
          insertA Intermediate.start.intermediate_callsites 1 rtCallsitePartial }
      rest rfl]
  rfl

/-- One record-loop step on an `EventRecord` (no event pending on the
record's thread). -/
lemma parseRecords_event (fuel : Nat) (st : Intermediate) (count ts cid tid : Nat)
    (rest : List Nat)
    (hcount : count < 2 ^ 16) (hts : ts < 2 ^ 64) (hcid : cid < 2 ^ 64) (htid : tid < 2 ^ 64)
    (hpend : lookupA st.intermediate_events tid = none) :
    parseRecords (fuel + 1) st (eventRecordBytes count ts cid tid ++ rest) =
      parseRecords fuel (if count = 0 then
        { st with
          threads := if (lookupA st.threads tid).isSome then st.threads
                     else st.threads ++ [(tid, none)]
          events := st.events ++ [{ timestamp := toSigned 64 ts, callsite_id := cid,
                                    valueCount := count, values := [] }]
          min_timestamp := min st.min_timestamp (toSigned 64 ts)
          max_timestamp := max st.max_timestamp (toSigned 64 ts) }
      else
        { st with
          threads := if (lookupA st.threads tid).isSome then st.threads
                     else st.threads ++ [(tid, none)]
          intermediate_events := insertA st.intermediate_events tid
            { timestamp := toSigned 64 ts, callsite_id := cid, valueCount := count, values := [] }
          min_timestamp := min st.min_timestamp (toSigned 64 ts)
          max_timestamp := max st.max_timestamp (toSigned 64 ts) }) rest := by
  have hne : eventRecordBytes count ts cid tid ++ rest ≠ [] := by
    simp [eventRecordBytes, recordHeaderBytes]
  have hd : parseStep st (eventRecordBytes count ts cid tid ++ rest)
      = st.event (eventRecordBytes count ts cid tid ++ rest) := by
    rw [show eventRecordBytes count ts cid tid ++ rest
        = 16 :: (natToLE 2 29 ++ (natToLE 2 count ++ (natToLE 8 ts ++ (natToLE 8 cid ++
            (natToLE 8 tid ++ rest)))))
        from by simp [eventRecordBytes, recordHeaderBytes]]
    norm_num [parseStep]
  rw [parseRecords_step fuel st _ _ hne
    (hd.trans (event_eval st count ts cid tid rest hcount hts hcid htid hpend))]

/-- One record-loop step on an `EventValueRecord` with a u64 payload
(an event pending on the record's thread). -/
lemma parseRecords_eventValue (fuel : Nat) (st : Intermediate) (fid tid v : Nat)
    (rest : List Nat) (ev : IntermediateEvent)
    (hfid : fid < 2 ^ 64) (htid : tid < 2 ^ 64) (hv : v < 2 ^ 64)
    (hpend : lookupA st.intermediate_events tid = some ev) :
    parseRecords (fuel + 1) st (eventValueRecordBytes 2 fid tid (natToLE 8 v) ++ rest) =
      parseRecords fuel (if ev.values.length + 1 = ev.valueCount then
        { st with
          intermediate_events := removeA st.intermediate_events tid
          events := st.events ++ [{ ev with values := ev.values ++
            [{ value := .u64 v, field_id := fid }] }] }
      else
        { st with
          intermediate_events := insertA (removeA st.intermediate_events tid) tid
            { ev with values := ev.values ++ [{ value := .u64 v, field_id := fid }] } }) rest := by
  have hne : eventValueRecordBytes 2 fid tid (natToLE 8 v) ++ rest ≠ [] := by
    simp [eventValueRecordBytes, recordHeaderBytes]
  have hd : parseStep st (eventValueRecordBytes 2 fid tid (natToLE 8 v) ++ rest)
      = st.eventValue (eventValueRecordBytes 2 fid tid (natToLE 8 v) ++ rest) := by
    rw [show eventValueRecordBytes 2 fid tid (natToLE 8 v) ++ rest
        = 17 :: (natToLE 2 28 ++ (2 :: (natToLE 8 fid ++ (natToLE 8 tid ++
            (natToLE 8 v ++ rest)))))
        from by simp [eventValueRecordBytes, recordHeaderBytes, length_natToLE]]
    norm_num [parseStep]
  rw [parseRecords_step fuel st _ _ hne
    (hd.trans (eventValue_eval st fid tid v rest ev hfid htid hv hpend))]

/-- One record-loop step on a `SpanOpenRecord2`. -/
lemma parseRecords_openSpan (fuel : Nat) (st : Intermediate) (sid pk pid cid ts : Nat)
    (rest : List Nat)
    (hsid : sid < 2 ^ 64) (hpid : pid < 2 ^ 64) (hcid : cid < 2 ^ 64) (hts : ts < 2 ^ 64) :
    parseRecords (fuel + 1) st (spanOpenRecord2Bytes sid pk pid cid ts ++ rest) =
      parseRecords fuel { st with
        min_timestamp := min st.min_timestamp (toSigned 64 ts)
        max_timestamp := max st.max_timestamp (toSigned 64 ts)
        span_nodes := st.span_nodes ++ [some
          { id := sid, opened := toSigned 64 ts, closed := 0, entrances := [],
            callsite_id := cid, parent_id := pid, values := [] }]
        opened_spans := insertA st.opened_spans sid st.span_nodes.length } rest := by
  have hne : spanOpenRecord2Bytes sid pk pid cid ts ++ rest ≠ [] := by
    simp [spanOpenRecord2Bytes, recordHeaderBytes]
  have hd : parseStep st (spanOpenRecord2Bytes sid pk pid cid ts ++ rest)
      = st.openSpan (spanOpenRecord2Bytes sid pk pid cid ts ++ rest) := by
    rw [show spanOpenRecord2Bytes sid pk pid cid ts ++ rest
        = 32 :: (natToLE 2 36 ++ (natToLE 8 sid ++ (natToLE 8 pid ++ (natToLE 8 cid ++
            (natToLE 8 ts ++ pk :: rest)))))
        from by simp [spanOpenRecord2Bytes, recordHeaderBytes]]
    norm_num [parseStep]
  rw [parseRecords_step fuel st _ _ hne
    (hd.trans (openSpan_eval st sid pk pid cid ts rest hsid hpid hcid hts))]

/-- One record-loop step on a `SpanCloseRecord` for an open root span. -/
lemma parseRecords_closeSpan (fuel : Nat) (st : Intermediate) (sid ts : Nat)
    (rest : List Nat) (idx : Nat) (span : IntermediateSpan)
    (hsid : sid < 2 ^ 64) (hts : ts < 2 ^ 64)
    (hlook : lookupA st.opened_spans sid = some idx)
    (hget : getNode st.span_nodes idx = some span)
    (hpar : span.parent_id = 0) :
    parseRecords (fuel + 1) st (spanCloseRecordBytes sid ts ++ rest) =
      parseRecords fuel { st with
        min_timestamp := min st.min_timestamp (toSigned 64 ts)
        max_timestamp := max st.max_timestamp (toSigned 64 ts)
        opened_spans := removeA st.opened_spans sid
        span_nodes := st.span_nodes.set idx (some { span with closed := toSigned 64 ts })
        root_nodes := st.root_nodes ++ [idx] } rest := by
  have hne : spanCloseRecordBytes sid ts ++ rest ≠ [] := by
    simp [spanCloseRecordBytes, recordHeaderBytes]
  have hd : parseStep st (spanCloseRecordBytes sid ts ++ rest)
      = st.closeSpan (spanCloseRecordBytes sid ts ++ rest) := by
    rw [show spanCloseRecordBytes sid ts ++ rest
        = 35 :: (natToLE 2 19 ++ (natToLE 8 sid ++ (natToLE 8 ts ++ rest)))
        from by simp [spanCloseRecordBytes, recordHeaderBytes]]
    norm_num [parseStep]
  rw [parseRecords_step fuel st _ _ hne
    (hd.trans (closeSpan_eval st sid ts rest idx span hsid hts hlook hget hpar))]

/-- One record-loop step on a `SpanValueRecord` with a u64 payload. -/
lemma parseRecords_spanValue (fuel : Nat) (st : Intermediate) (fid sid v : Nat)
    (rest : List Nat) (idx : Nat) (span : IntermediateSpan)
    (hfid : fid < 2 ^ 64) (hsid : sid < 2 ^ 64) (hv : v < 2 ^ 64)
    (hlook : lookupA st.opened_spans sid = some idx)
    (hget : getNode st.span_nodes idx = some span) :
    parseRecords (fuel + 1) st (spanValueRecordBytes 2 fid sid (natToLE 8 v) ++ rest) =
      parseRecords fuel { st with
        span_nodes := st.span_nodes.set idx
          (some { span with values := insertA span.values fid (.u64 v) }) } rest := by
  have hne : spanValueRecordBytes 2 fid sid (natToLE 8 v) ++ rest ≠ [] := by
    simp [spanValueRecordBytes, recordHeaderBytes]
  have hd : parseStep st (spanValueRecordBytes 2 fid sid (natToLE 8 v) ++ rest)
      = st.spanValue (spanValueRecordBytes 2 fid sid (natToLE 8 v) ++ rest) := by
    rw [show spanValueRecordBytes 2 fid sid (natToLE 8 v) ++ rest
        = 36 :: (natToLE 2 28 ++ (2 :: (natToLE 8 fid ++ (natToLE 8 sid ++
            (natToLE 8 v ++ rest)))))
        from by simp [spanValueRecordBytes, recordHeaderBytes, length_natToLE]]
    norm_num [parseStep]
  rw [parseRecords_step fuel st _ _ hne
    (hd.trans (spanValue_eval st fid sid v rest idx span hfid hsid hv hlook hget))]

/-- The parser state after `rtPrelude`, one `SPAN_OPEN` (id 1, root,
callsite 1, timestamp bits `o`) and one `SPAN_CLOSE` (timestamp bits
`c`): the single span is closed with exactly the records' timestamps
and sits in `root_nodes`. -/
lemma closedSpan_intermediate (o c : Nat) (ho : o < 2 ^ 64) (hc : c < 2 ^ 64) :
    Intermediate.parse Intermediate.start
      (rtPrelude ++ (spanOpenRecord2Bytes 1 0 0 1 o ++ (spanCloseRecordBytes 1 c ++ []))) =
    some { Intermediate.start with
           min_timestamp := min (min Intermediate.start.min_timestamp (toSigned 64 o))
             (toSigned 64 c)
           max_timestamp := max (max Intermediate.start.max_timestamp (toSigned 64 o))
             (toSigned 64 c)
           callsites := [rtCallsite]
           span_nodes := [some { id := 1, opened := toSigned 64 o, closed := toSigned 64 c,
                                 entrances := [], callsite_id := 1, parent_id := 0,
                                 values := [] }]
           root_nodes := [0] } := by
  unfold Intermediate.parse
  have hlen : (rtPrelude ++ (spanOpenRecord2Bytes 1 0 0 1 o ++
      (spanCloseRecordBytes 1 c ++ []))).length + 1 = 105 := by
    simp [rtPrelude, callsiteRecordBytes, callsiteFieldRecordBytes, spanOpenRecord2Bytes,
      spanCloseRecordBytes, recordHeaderBytes, length_natToLE]
  rw [hlen]
  rw [show (105 : Nat) = 103 + 2 from rfl, parseRecords_rtPrelude]
  rw [show (103 : Nat) = 102 + 1 from rfl,
    parseRecords_openSpan 102 rtState1 1 0 0 1 o _ (by norm_num) (by norm_num) (by norm_num) ho]
  rw [show (102 : Nat) = 101 + 1 from rfl,
    parseRecords_closeSpan 101
      { rtState1 with
        min_timestamp := min rtState1.min_timestamp (toSigned 64 o)
        max_timestamp := max rtState1.max_timestamp (toSigned 64 o)
        span_nodes := rtState1.span_nodes ++ [some
          { id := 1, opened := toSigned 64 o, closed := 0, entrances := [],
            callsite_id := 1, parent_id := 0, values := [] }]
        opened_spans := insertA rtState1.opened_spans 1 rtState1.span_nodes.length }
      1 c [] 0
      { id := 1, opened := toSigned 64 o, closed := 0, entrances := [],
        callsite_id := 1, parent_id := 0, values := [] }
      (by norm_num) hc rfl rfl rfl]
  rfl

/-- The parser state after `rtPrelude` and a single `SPAN_OPEN` with no
matching close: the span sits only in the graph and `opened_spans`,
with `closed = 0`, and `root_nodes` stays empty. -/
lemma openOnly_intermediate (o : Nat) (ho : o < 2 ^ 64) :
    Intermediate.parse Intermediate.start
      (rtPrelude ++ (spanOpenRecord2Bytes 1 0 0 1 o ++ [])) =
    some { Intermediate.start with
           min_timestamp := min Intermediate.start.min_timestamp (toSigned 64 o)
           max_timestamp := max Intermediate.start.max_timestamp (toSigned 64 o)
           callsites := [rtCallsite]
           span_nodes := [some { id := 1, opened := toSigned 64 o, closed := 0,
                                 entrances := [], callsite_id := 1, parent_id := 0,
                                 values := [] }]
           opened_spans := [(1, 0)] } := by
  unfold Intermediate.parse
  have hlen : (rtPrelude ++ (spanOpenRecord2Bytes 1 0 0 1 o ++ [])).length + 1 = 86 := by
    simp [rtPrelude, callsiteRecordBytes, callsiteFieldRecordBytes, spanOpenRecord2Bytes,
      recordHeaderBytes, length_natToLE]
  rw [hlen]
  rw [show (86 : Nat) = 84 + 2 from rfl, parseRecords_rtPrelude]
  rw [show (84 : Nat) = 83 + 1 from rfl,
    parseRecords_openSpan 83 rtState1 1 0 0 1 o _ (by norm_num) (by norm_num) (by norm_num) ho]
  rfl

set_option maxRecDepth 4000 in
/-- Finalization of a state holding one closed root span over the
`rtPrelude` callsite: the span is materialized with its `opened` and
`closed` fields unchanged. -/
lemma new_singleRootSpan (mn mx op cl : Int) :
    TapeData.new { Intermediate.start with
      min_timestamp := mn
      max_timestamp := mx
      callsites := [rtCallsite]
      span_nodes := [some { id := 1, opened := op, closed := cl, entrances := [],
                            callsite_id := 1, parent_id := 0, values := [] }]
      root_nodes := [0] } =
    some { min_timestamp := mn, max_timestamp := mx,
           callsites := [rtCallsite.toCallsite], events := [],
           spans := [{ opened := op, closed := cl, callsite_index := 0, entrances := [],
                       values := [] }],
           span_edges := [], root_spans := [0], threads := [] } := rfl

set_option maxRecDepth 4000 in
/-- Finalization of a state holding one *unclosed* span: the span is
not reachable from `root_nodes`, so it is simply dropped — it is *not*
materialized with `closed = max_timestamp`. -/
lemma new_openOnlySpan (mn mx op : Int) :
    TapeData.new { Intermediate.start with
      min_timestamp := mn
      max_timestamp := mx
      callsites := [rtCallsite]
      span_nodes := [some { id := 1, opened := op, closed := 0, entrances := [],
                            callsite_id := 1, parent_id := 0, values := [] }]
      opened_spans := [(1, 0)] } =
    some { min_timestamp := mn, max_timestamp := mx,
           callsites := [rtCallsite.toCallsite], events := [],
           spans := [], span_edges := [], root_spans := [], threads := [] } := rfl

/-! ## C2: span close semantics -/

set_option maxRecDepth 16000 in
/-- **C2, counterexample.**  On the tape `unclosedSpanTape` (span 1
opened at 5 and closed at 3; span 2 opened at 0 and never closed) the
parsed model holds exactly one span, with `opened = 5 > closed = 3` —
so `opened ≤ closed` fails — and the unclosed span 2 is absent
entirely, *not* materialized with `closed = max_observed_timestamp`. -/
theorem span_close_counterexample :
    (Tape.parse unclosedSpanTape).map (fun t => t.data.spans.map fun s => (s.opened, s.closed))
      = some [(5, 3)] ∧
    ¬ ((5 : Int) ≤ 3) := by
  constructor
  · rfl
  · norm_num

/-- **C2, amended.**  A span whose open *and* close records are both
present is materialized with `opened`/`closed` equal to those records'
timestamps — so `opened ≤ closed` holds exactly when the close
timestamp is not smaller than the open timestamp (as on any
recorder-produced tape) — but a span with no `SPAN_CLOSE` record is
*dropped* from the model: the reconstructor never assigns
`closed = max_observed_timestamp`. -/
theorem span_close_semantics (o c : Nat) (ho : o < 2 ^ 64) (hc : c < 2 ^ 64)
    (hle : toSigned 64 o ≤ toSigned 64 c) :
    ((Tape.parse (closedSpanTape o c)).map fun t => t.data.spans.map fun s => (s.opened, s.closed))
        = some [(toSigned 64 o, toSigned 64 c)] ∧
    (∀ t, Tape.parse (closedSpanTape o c) = some t → ∀ s ∈ t.data.spans, s.opened ≤ s.closed) ∧
    ((Tape.parse (openOnlySpanTape o)).map fun t => t.data.spans) = some [] := by
  have hmagic : (introBytes 20 0).length = 32 := by
    simp [introBytes, length_natToLE]
  have hT : Tape.parse (closedSpanTape o c) = some
      { intro := { magic := readBytes (closedSpanTape o c) 0 8,
                   version_major := readU8 (closedSpanTape o c) 8,
                   version_minor := readU8 (closedSpanTape o c) 9,
                   chapter_size_pot := readU8 (closedSpanTape o c) 10,
                   timestamp_base := readI128 (closedSpanTape o c) 16 },
        data := { min_timestamp := min (min Intermediate.start.min_timestamp (toSigned 64 o))
                    (toSigned 64 c),
                  max_timestamp := max (max Intermediate.start.max_timestamp (toSigned 64 o))
                    (toSigned 64 c),
                  callsites := [rtCallsite.toCallsite], events := [],
                  spans := [{ opened := toSigned 64 o, closed := toSigned 64 c,
                              callsite_index := 0, entrances := [], values := [] }],
                  span_edges := [], root_spans := [0], threads := [] } } := by
    have hI : Intro.read (closedSpanTape o c) = some
        { magic := readBytes (closedSpanTape o c) 0 8,
          version_major := readU8 (closedSpanTape o c) 8,
          version_minor := readU8 (closedSpanTape o c) 9,
          chapter_size_pot := readU8 (closedSpanTape o c) 10,
          timestamp_base := readI128 (closedSpanTape o c) 16 } := by
      rw [Intro.read, if_neg (by simp [closedSpanTape, rtPrelude, introBytes,
        callsiteRecordBytes, callsiteFieldRecordBytes, spanOpenRecord2Bytes,
        spanCloseRecordBytes, recordHeaderBytes, length_natToLE])]
    have hD : (closedSpanTape o c).drop 32 =
        rtPrelude ++ (spanOpenRecord2Bytes 1 0 0 1 o ++ (spanCloseRecordBytes 1 c ++ [])) := by
      rw [show closedSpanTape o c = introBytes 20 0 ++
          (rtPrelude ++ (spanOpenRecord2Bytes 1 0 0 1 o ++ (spanCloseRecordBytes 1 c ++ [])))
        from by simp [closedSpanTape]]
      exact List.drop_left' hmagic
    simp only [Tape.parse, hI, hD, closedSpan_intermediate o c ho hc, new_singleRootSpan,
      Option.map_some']
  refine ⟨?_, ?_, ?_⟩
  · rw [hT]
    rfl
  · intro t ht s hs
    rw [hT] at ht
    injection ht with ht
    subst ht
    simp only [List.mem_singleton] at hs
    subst hs
    exact hle
  · have hI : Intro.read (openOnlySpanTape o) = some
        { magic := readBytes (openOnlySpanTape o) 0 8,
          version_major := readU8 (openOnlySpanTape o) 8,
          version_minor := readU8 (openOnlySpanTape o) 9,
          chapter_size_pot := readU8 (openOnlySpanTape o) 10,
          timestamp_base := readI128 (openOnlySpanTape o) 16 } := by
      rw [Intro.read, if_neg (by simp [openOnlySpanTape, rtPrelude, introBytes,
        callsiteRecordBytes, callsiteFieldRecordBytes, spanOpenRecord2Bytes,
        recordHeaderBytes, length_natToLE])]
    have hD : (openOnlySpanTape o).drop 32 =
        rtPrelude ++ (spanOpenRecord2Bytes 1 0 0 1 o ++ []) := by
      rw [show openOnlySpanTape o = introBytes 20 0 ++
          (rtPrelude ++ (spanOpenRecord2Bytes 1 0 0 1 o ++ []))
        from by simp [openOnlySpanTape]]
      exact List.drop_left' hmagic
    simp only [Tape.parse, hI, hD, openOnly_intermediate o ho, new_openOnlySpan,
      Option.map_some']

/-- **C2, witness** for `span_close_semantics` at `o = 3`, `c = 7`. -/
theorem span_close_semantics_witness :
    (((Tape.parse (closedSpanTape 3 7)).map fun t =>
        t.data.spans.map fun s => (s.opened, s.closed))
        = some [(toSigned 64 3, toSigned 64 7)]) ∧
    (∀ t, Tape.parse (closedSpanTape 3 7) = some t → ∀ s ∈ t.data.spans, s.opened ≤ s.closed) ∧
    ((Tape.parse (openOnlySpanTape 3)).map fun t => t.data.spans) = some [] :=
  span_close_semantics 3 7 (by norm_num) (by norm_num) (by decide)

/-! ## C4: unknown record kinds versus unknown value kinds -/

set_option maxRecDepth 16000 in
/-- **C4, counterexample.**  A tape whose `EVENT_VALUE` record carries
the unknown value-kind tag 99 makes the whole parse fail
(`Value::parse` hits `panic!("unknown field type")`): the value is
*not* dropped with a recoverable warning. -/
theorem unknown_value_kind_counterexample :
    Tape.parse unknownValueKindTape = none := by
  rfl

/-- **C4, amended.**  A record of unknown kind is not an error: the
dispatch loop skips it using its header `len` and continues in the
same state, leaving the surrounding records intact.  An unknown *value*
kind, by contrast, aborts the parse (see the counterexample): it is a
panic, not a recoverable warning. -/
theorem unknown_record_kinds_skipped (k len : Nat) (payload rest : List Nat)
    (st : Intermediate) (fuel : Nat)
    (hk : k ∉ ([0, 8, 9, 16, 17, 32, 33, 34, 35, 36] : List Nat))
    (hlen : payload.length + 3 = len) (hbound : len < 2 ^ 16) :
    parseRecords (fuel + 1) st ((k :: natToLE 2 len ++ payload) ++ rest) =
      parseRecords fuel st rest := by
  simp only [List.mem_cons, List.mem_singleton, not_or] at hk
  obtain ⟨hk0, hk8, hk9, hk16, hk17, hk32, hk33, hk34, hk35, hk36, -⟩ := hk
  have hmod : len % 2 ^ 16 = len := Nat.mod_eq_of_lt hbound
  norm_num at hmod
  have hB : (k :: natToLE 2 len ++ payload) ++ rest
      = k :: (natToLE 2 len ++ (payload ++ rest)) := by simp
  have e1 : readBytes (k :: (natToLE 2 len ++ (payload ++ rest))) 1 2 = natToLE 2 len := by
    rw [readBytes_cons_skip _ _ 1 2 (by norm_num)]
    norm_num
    exact readBytes_append_here _ _ _ (length_natToLE 2 len)
  have e2 : (k :: (natToLE 2 len ++ (payload ++ rest))).drop len = rest := by
    rw [drop_cons_skip _ _ len (by omega)]
    rw [drop_append_skip _ _ _ (by simp [length_natToLE]; omega)]
    simp only [length_natToLE]
    rw [drop_append_skip _ _ _ (by omega)]
    rw [show len - 1 - 2 - payload.length = 0 from by omega, List.drop_zero]
  have hstep : parseStep st (k :: (natToLE 2 len ++ (payload ++ rest))) = some (st, rest) := by
    simp only [parseStep]
    rw [if_neg hk0, if_neg hk8, if_neg hk9, if_neg hk32, if_neg hk33, if_neg hk34,
      if_neg hk35, if_neg hk36, if_neg hk16, if_neg hk17,
      if_neg (by simp only [List.length_cons, List.length_append, length_natToLE]; omega)]
    simp only [readU16, e1, leToNat_natToLE]
    rw [Nat.mod_eq_of_lt (by norm_num; omega), e2]
  rw [hB, parseRecords_step fuel st _ _ (by simp) hstep]

/-- **C4, witness** for `unknown_record_kinds_skipped`: an unknown
record kind `0x7F` of length 9 between two (empty) event records is
skipped and both events survive. -/
theorem unknown_record_kinds_skipped_witness :
    parseRecords (5 + 1) Intermediate.start
      ((127 :: natToLE 2 9 ++ [0, 0, 0, 0, 0, 0]) ++ eventRecordBytes 0 7 1 3) =
      parseRecords 5 Intermediate.start (eventRecordBytes 0 7 1 3) :=
  unknown_record_kinds_skipped 127 9 [0, 0, 0, 0, 0, 0] (eventRecordBytes 0 7 1 3)
    Intermediate.start 5 (by decide) (by decide) (by norm_num)

/-! ## C10: span values replace per field, event values accumulate -/

/-- The parser state after `rtPrelude`, a span opened at 5 carrying two
`SPAN_VALUE` records for field 2 (payloads `v1` then `v2`), closed at
9, and one event (two values for field 2, payloads `v1` then `v2`):
the span's map keeps only `v2`, the event's list keeps both. -/
lemma dup_intermediate (v1 v2 : Nat) (h1 : v1 < 2 ^ 64) (h2 : v2 < 2 ^ 64) :
    Intermediate.parse Intermediate.start
      (rtPrelude ++ (spanOpenRecord2Bytes 1 0 0 1 5 ++
        (spanValueRecordBytes 2 2 1 (natToLE 8 v1) ++
          (spanValueRecordBytes 2 2 1 (natToLE 8 v2) ++
            (spanCloseRecordBytes 1 9 ++
              (eventRecordBytes 2 5 1 3 ++
                (eventValueRecordBytes 2 2 3 (natToLE 8 v1) ++
                  (eventValueRecordBytes 2 2 3 (natToLE 8 v2) ++ [])))))))) =
    some { Intermediate.start with
           min_timestamp := 5
           max_timestamp := 9
           callsites := [rtCallsite]
           events := [{ timestamp := 5, callsite_id := 1, valueCount := 2,
                        values := [{ value := .u64 v1, field_id := 2 },
                                   { value := .u64 v2, field_id := 2 }] }]
           span_nodes := [some { id := 1, opened := 5, closed := 9, entrances := [],
                                 callsite_id := 1, parent_id := 0,
                                 values := [(2, Value.u64 v2)] }]
           root_nodes := [0]
           threads := [(3, none)] } := by
  unfold Intermediate.parse
  have hlen : (rtPrelude ++ (spanOpenRecord2Bytes 1 0 0 1 5 ++
      (spanValueRecordBytes 2 2 1 (natToLE 8 v1) ++
        (spanValueRecordBytes 2 2 1 (natToLE 8 v2) ++
          (spanCloseRecordBytes 1 9 ++
            (eventRecordBytes 2 5 1 3 ++
              (eventValueRecordBytes 2 2 3 (natToLE 8 v1) ++
                (eventValueRecordBytes 2 2 3 (natToLE 8 v2) ++ [])))))))).length + 1 = 246 := by
    simp [rtPrelude, callsiteRecordBytes, callsiteFieldRecordBytes, spanOpenRecord2Bytes,
      spanValueRecordBytes, spanCloseRecordBytes, eventRecordBytes, eventValueRecordBytes,
      recordHeaderBytes, length_natToLE]
  rw [hlen]
  rw [show (246 : Nat) = 244 + 2 from rfl, parseRecords_rtPrelude]
  rw [show (244 : Nat) = 243 + 1 from rfl,
    parseRecords_openSpan 243 rtState1 1 0 0 1 5 _
      (by norm_num) (by norm_num) (by norm_num) (by norm_num)]
  change parseRecords 243
    { Intermediate.start with
      min_timestamp := 5, max_timestamp := 5, callsites := [rtCallsite]
      span_nodes := [some { id := 1, opened := 5, closed := 0, entrances := [],
                            callsite_id := 1, parent_id := 0, values := [] }]
      opened_spans := [(1, 0)] } _ = _
  rw [show (243 : Nat) = 242 + 1 from rfl,
    parseRecords_spanValue 242
      { Intermediate.start with
        min_timestamp := 5, max_timestamp := 5, callsites := [rtCallsite]
        span_nodes := [some { id := 1, opened := 5, closed := 0, entrances := [],
                              callsite_id := 1, parent_id := 0, values := [] }]
        opened_spans := [(1, 0)] }
      2 1 v1 _ 0
      { id := 1, opened := 5, closed := 0, entrances := [], callsite_id := 1,
        parent_id := 0, values := [] }
      (by norm_num) (by norm_num) h1 rfl rfl]
  change parseRecords 242
    { Intermediate.start with
      min_timestamp := 5, max_timestamp := 5, callsites := [rtCallsite]
      span_nodes := [some { id := 1, opened := 5, closed := 0, entrances := [],
                            callsite_id := 1, parent_id := 0,
                            values := [(2, Value.u64 v1)] }]
      opened_spans := [(1, 0)] } _ = _
  rw [show (242 : Nat) = 241 + 1 from rfl,
    parseRecords_spanValue 241
      { Intermediate.start with
        min_timestamp := 5, max_timestamp := 5, callsites := [rtCallsite]
        span_nodes := [some { id := 1, opened := 5, closed := 0, entrances := [],
                              callsite_id := 1, parent_id := 0,
                              values := [(2, Value.u64 v1)] }]
        opened_spans := [(1, 0)] }
      2 1 v2 _ 0
      { id := 1, opened := 5, closed := 0, entrances := [], callsite_id := 1,
        parent_id := 0, values := [(2, Value.u64 v1)] }
      (by norm_num) (by norm_num) h2 rfl rfl]
  change parseRecords 241
    { Intermediate.start with
      min_timestamp := 5, max_timestamp := 5, callsites := [rtCallsite]
      span_nodes := [some { id := 1, opened := 5, closed := 0, entrances := [],
                            callsite_id := 1, parent_id := 0,
                            values := [(2, Value.u64 v2)] }]
      opened_spans := [(1, 0)] } _ = _
  rw [show (241 : Nat) = 240 + 1 from rfl,
    parseRecords_closeSpan 240
      { Intermediate.start with
        min_timestamp := 5, max_timestamp := 5, callsites := [rtCallsite]
        span_nodes := [some { id := 1, opened := 5, closed := 0, entrances := [],
                              callsite_id := 1, parent_id := 0,
                              values := [(2, Value.u64 v2)] }]
        opened_spans := [(1, 0)] }
      1 9 _ 0
      { id := 1, opened := 5, closed := 0, entrances := [], callsite_id := 1,
        parent_id := 0, values := [(2, Value.u64 v2)] }
      (by norm_num) (by norm_num) rfl rfl rfl]
  change parseRecords 240
    { Intermediate.start with
      min_timestamp := 5, max_timestamp := 9, callsites := [rtCallsite]
      span_nodes := [some { id := 1, opened := 5, closed := 9, entrances := [],
                            callsite_id := 1, parent_id := 0,
                            values := [(2, Value.u64 v2)] }]
      root_nodes := [0] } _ = _
  rw [show (240 : Nat) = 239 + 1 from rfl,
    parseRecords_event 239
      { Intermediate.start with
        min_timestamp := 5, max_timestamp := 9, callsites := [rtCallsite]
        span_nodes := [some { id := 1, opened := 5, closed := 9, entrances := [],
                              callsite_id := 1, parent_id := 0,
                              values := [(2, Value.u64 v2)] }]
        root_nodes := [0] }
      2 5 1 3 _ (by norm_num) (by norm_num) (by norm_num) (by norm_num) rfl]
  rw [if_neg (show ¬((2 : Nat) = 0) by norm_num)]
  change parseRecords 239
    { Intermediate.start with
      min_timestamp := 5, max_timestamp := 9, callsites := [rtCallsite]
      intermediate_events := [(3, { timestamp := 5, callsite_id := 1, valueCount := 2,
                                    values := [] })]
      span_nodes := [some { id := 1, opened := 5, closed := 9, entrances := [],
                            callsite_id := 1, parent_id := 0,
                            values := [(2, Value.u64 v2)] }]
      root_nodes := [0]
      threads := [(3, none)] } _ = _
  rw [show (239 : Nat) = 238 + 1 from rfl,
    parseRecords_eventValue 238
      { Intermediate.start with
        min_timestamp := 5, max_timestamp := 9, callsites := [rtCallsite]
        intermediate_events := [(3, { timestamp := 5, callsite_id := 1, valueCount := 2,
                                      values := [] })]
        span_nodes := [some { id := 1, opened := 5, closed := 9, entrances := [],
                              callsite_id := 1, parent_id := 0,
                              values := [(2, Value.u64 v2)] }]
        root_nodes := [0]
        threads := [(3, none)] }
      2 3 v1 _ { timestamp := 5, callsite_id := 1, valueCount := 2, values := [] }
      (by norm_num) (by norm_num) h1 rfl]
  rw [if_neg (by simp : ¬(([] : List IntermediateValue).length + 1 = 2))]
  change parseRecords 238
    { Intermediate.start with
      min_timestamp := 5, max_timestamp := 9, callsites := [rtCallsite]
      intermediate_events := [(3, { timestamp := 5, callsite_id := 1, valueCount := 2,
                                    values := [{ value := .u64 v1, field_id := 2 }] })]
      span_nodes := [some { id := 1, opened := 5, closed := 9, entrances := [],
                            callsite_id := 1, parent_id := 0,
                            values := [(2, Value.u64 v2)] }]
      root_nodes := [0]
      threads := [(3, none)] } _ = _
  rw [show (238 : Nat) = 237 + 1 from rfl,
    parseRecords_eventValue 237
      { Intermediate.start with
        min_timestamp := 5, max_timestamp := 9, callsites := [rtCallsite]
        intermediate_events := [(3, { timestamp := 5, callsite_id := 1, valueCount := 2,
                                      values := [{ value := .u64 v1, field_id := 2 }] })]
        span_nodes := [some { id := 1, opened := 5, closed := 9, entrances := [],
                              callsite_id := 1, parent_id := 0,
                              values := [(2, Value.u64 v2)] }]
        root_nodes := [0]
        threads := [(3, none)] }
      2 3 v2 _
      { timestamp := 5, callsite_id := 1, valueCount := 2,
        values := [{ value := .u64 v1, field_id := 2 }] }
      (by norm_num) (by norm_num) h2 rfl]
  rw [if_pos (by simp : ([{ value := Value.u64 v1, field_id := 2 }]
    : List IntermediateValue).length + 1 = 2)]
  rfl

set_option maxRecDepth 4000 in
/-- Finalization of the `dup_intermediate` state for arbitrary value
payloads: the span exposes only its (replaced) single value, the event
exposes both values in arrival order (equal keys, stable sort). -/
lemma new_dupState (a b w : Value) :
    TapeData.new { Intermediate.start with
      min_timestamp := 5
      max_timestamp := 9
      callsites := [rtCallsite]
      events := [{ timestamp := 5, callsite_id := 1, valueCount := 2,
                   values := [{ value := a, field_id := 2 },
                              { value := b, field_id := 2 }] }]
      span_nodes := [some { id := 1, opened := 5, closed := 9, entrances := [],
                            callsite_id := 1, parent_id := 0, values := [(2, w)] }]
      root_nodes := [0]
      threads := [(3, none)] } =
    some { min_timestamp := 5, max_timestamp := 9,
           callsites := [rtCallsite.toCallsite],
           events := [{ timestamp := 5, callsite_index := 0, values := [a, b] }],
           spans := [{ opened := 5, closed := 9, callsite_index := 0, entrances := [],
                       values := [w] }],
           span_edges := [], root_spans := [0], threads := [(3, none)] } := rfl

/-- **C10.**  When several `SPAN_VALUE` records target the same span and
field id, the value parsed last replaces the earlier ones (the span
carries at most one value per field id); an event, by contrast,
accumulates every `EVENT_VALUE` record in arrival order, duplicates of
the same field id included. -/
theorem span_value_last_wins (v1 v2 : Nat) (h1 : v1 < 2 ^ 64) (h2 : v2 < 2 ^ 64) :
    ((Tape.parse (dupTape v1 v2)).map fun t =>
        (t.data.spans.map Span.values, t.data.events.map Event.values))
      = some ([[Value.u64 v2]], [[Value.u64 v1, Value.u64 v2]]) := by
  have hI : Intro.read (dupTape v1 v2) = some
      { magic := readBytes (dupTape v1 v2) 0 8,
        version_major := readU8 (dupTape v1 v2) 8,
        version_minor := readU8 (dupTape v1 v2) 9,
        chapter_size_pot := readU8 (dupTape v1 v2) 10,
        timestamp_base := readI128 (dupTape v1 v2) 16 } := by
    rw [Intro.read, if_neg (by simp [dupTape, rtPrelude, introBytes,
      callsiteRecordBytes, callsiteFieldRecordBytes, spanOpenRecord2Bytes,
      spanValueRecordBytes, spanCloseRecordBytes, eventRecordBytes, eventValueRecordBytes,
      recordHeaderBytes, length_natToLE])]
  have hD : (dupTape v1 v2).drop 32 =
      rtPrelude ++ (spanOpenRecord2Bytes 1 0 0 1 5 ++
        (spanValueRecordBytes 2 2 1 (natToLE 8 v1) ++
          (spanValueRecordBytes 2 2 1 (natToLE 8 v2) ++
            (spanCloseRecordBytes 1 9 ++
              (eventRecordBytes 2 5 1 3 ++
                (eventValueRecordBytes 2 2 3 (natToLE 8 v1) ++
                  (eventValueRecordBytes 2 2 3 (natToLE 8 v2) ++ []))))))) := by
    rw [show dupTape v1 v2 = introBytes 20 0 ++
        (rtPrelude ++ (spanOpenRecord2Bytes 1 0 0 1 5 ++
          (spanValueRecordBytes 2 2 1 (natToLE 8 v1) ++
            (spanValueRecordBytes 2 2 1 (natToLE 8 v2) ++
              (spanCloseRecordBytes 1 9 ++
                (eventRecordBytes 2 5 1 3 ++
                  (eventValueRecordBytes 2 2 3 (natToLE 8 v1) ++
                    (eventValueRecordBytes 2 2 3 (natToLE 8 v2) ++ []))))))))
      from by simp [dupTape]]
    exact List.drop_left' (by simp [introBytes, length_natToLE])
  simp only [Tape.parse, hI, hD, dup_intermediate v1 v2 h1 h2,
    new_dupState (Value.u64 v1) (Value.u64 v2) (Value.u64 v2), Option.map_some']
  simp

/-- **C10, witness** for `span_value_last_wins` at `v1 = 11`,
`v2 = 22`. -/
theorem span_value_last_wins_witness :
    ((Tape.parse (dupTape 11 22)).map fun t =>
        (t.data.spans.map Span.values, t.data.events.map Event.values))
      = some ([[Value.u64 22]], [[Value.u64 11, Value.u64 22]]) :=
  span_value_last_wins 11 22 (by norm_num) (by norm_num)

lemma two_pow_eq_four_mul (pot : Nat) (h : 2 ≤ pot) : 2 ^ pot = 4 * 2 ^ (pot - 2) := by
  have h2 : pot = 2 + (pot - 2) := by omega
  rw [h2, pow_add]
  norm_num

lemma two_pow_div_four (pot : Nat) (h : 2 ≤ pot) : 2 ^ pot / 4 = 2 ^ (pot - 2) := by
  rw [two_pow_eq_four_mul pot h, Nat.mul_div_cancel_left _ (by norm_num)]

/-- One-step equation of the writer's reservation loop. -/
lemma writeAux_succ (pot fuel off size : Nat) :
    Recorder.writeAux pot (fuel + 1) off size =
      if 2 ^ pot / 4 < size then none
      else if off / 2 ^ pot = (off + size - 1) / 2 ^ pot then
        if (off + size) % 2 ^ pot = 0 then
          some { placedChapter := off / 2 ^ pot, placedOffset := off % 2 ^ pot,
                 newOffset := off + size,
                 finishes := [(off / 2 ^ pot, 2 ^ pot)],
                 dataOffsetStores := [(off / 2 ^ pot + 1, 0)],
                 zeroFills := [(off / 2 ^ pot, 2 ^ pot, 2 ^ pot)] }
        else
          some { placedChapter := off / 2 ^ pot, placedOffset := off % 2 ^ pot,
                 newOffset := off + size,
                 finishes := [], dataOffsetStores := [], zeroFills := [] }
      else
        (Recorder.writeAux pot fuel (off + size) size).map fun e =>
          { e with
            finishes := (off / 2 ^ pot, off % 2 ^ pot) :: e.finishes,
            dataOffsetStores :=
              (off / 2 ^ pot + 1, (off + size) % 2 ^ pot) :: e.dataOffsetStores,
            zeroFills := (off / 2 ^ pot, off % 2 ^ pot, 2 ^ pot)
              :: (off / 2 ^ pot + 1, 0, (off + size) % 2 ^ pot) :: e.zeroFills } := rfl

/-- Full evaluation of a straddling reservation: the current chapter is
finished at the record's in-chapter offset, the next slot's
`data_offset` becomes the end of the abandoned reservation
(`(off + size) % 2 ^ pot`, which is nonzero), both the tail of the old
chapter and the prefix of the new one are zero-filled, and the retried
record lands in the next chapter at that same nonzero offset. -/
lemma write_straddle_eval (pot off size : Nat) (hpot : 2 ≤ pot) (hsz : 1 ≤ size)
    (hbound : size ≤ 2 ^ pot / 4) (hstr : 2 ^ pot < off % 2 ^ pot + size) :
    Recorder.write pot off size = some
      { placedChapter := off / 2 ^ pot + 1
        placedOffset := (off + size) % 2 ^ pot
        newOffset := off + size + size
        finishes := [(off / 2 ^ pot, off % 2 ^ pot)]
        dataOffsetStores := [(off / 2 ^ pot + 1, (off + size) % 2 ^ pot)]
        zeroFills := [(off / 2 ^ pot, off % 2 ^ pot, 2 ^ pot),
                      (off / 2 ^ pot + 1, 0, (off + size) % 2 ^ pot)] } := by
  have hP : 0 < 2 ^ pot := pow_pos (by norm_num) pot
  have hX : 2 ^ pot / 4 = 2 ^ (pot - 2) := two_pow_div_four pot hpot
  have hP4 : 2 ^ pot = 4 * 2 ^ (pot - 2) := two_pow_eq_four_mul pot hpot
  have hdm : 2 ^ pot * (off / 2 ^ pot) + off % 2 ^ pot = off := Nat.div_add_mod off (2 ^ pot)
  have hmlt : off % 2 ^ pot < 2 ^ pot := Nat.mod_lt _ hP
  have hsize : size ≤ 2 ^ (pot - 2) := by omega
  have hqP : (off / 2 ^ pot + 1) * 2 ^ pot = 2 ^ pot * (off / 2 ^ pot) + 2 ^ pot := by ring
  have h1 : (off + size - 1) / 2 ^ pot = off / 2 ^ pot + 1 := by
    have he : off + size - 1 =
        (off % 2 ^ pot + size - 1 - 2 ^ pot) + (off / 2 ^ pot + 1) * 2 ^ pot := by
      rw [hqP]; omega
    rw [he, Nat.add_mul_div_right _ _ hP, Nat.div_eq_of_lt (by omega)]
    omega
  have h2 : (off + size) / 2 ^ pot = off / 2 ^ pot + 1 := by
    have he : off + size =
        (off % 2 ^ pot + size - 2 ^ pot) + (off / 2 ^ pot + 1) * 2 ^ pot := by
      rw [hqP]; omega
    rw [he, Nat.add_mul_div_right _ _ hP, Nat.div_eq_of_lt (by omega)]
    omega
  have h3 : (off + size) % 2 ^ pot = off % 2 ^ pot + size - 2 ^ pot := by
    have he : off + size =
        (off % 2 ^ pot + size - 2 ^ pot) + (off / 2 ^ pot + 1) * 2 ^ pot := by
      rw [hqP]; omega
    rw [he, Nat.add_mul_mod_self_right, Nat.mod_eq_of_lt (by omega)]
  have h4 : (off + size + size - 1) / 2 ^ pot = off / 2 ^ pot + 1 := by
    have he : off + size + size - 1 =
        (off % 2 ^ pot + size + size - 1 - 2 ^ pot) + (off / 2 ^ pot + 1) * 2 ^ pot := by
      rw [hqP]; omega
    rw [he, Nat.add_mul_div_right _ _ hP, Nat.div_eq_of_lt (by omega)]
    omega
  have h5 : ¬((off + size + size) % 2 ^ pot = 0) := by
    have he : off + size + size =
        (off % 2 ^ pot + size + size - 2 ^ pot) + (off / 2 ^ pot + 1) * 2 ^ pot := by
      rw [hqP]; omega
    rw [he, Nat.add_mul_mod_self_right, Nat.mod_eq_of_lt (by omega)]
    omega
  have e2 := writeAux_succ pot 1 off size
  norm_num at e2
  have e1 := writeAux_succ pot 0 (off + size) size
  norm_num at e1
  unfold Recorder.write
  rw [e2, if_neg (by omega), if_neg (by omega), e1, if_neg (by omega),
    if_pos (by omega), if_neg h5]
  simp only [Option.map_some']
  rw [h2]

/-- A reservation of accepted size always succeeds (possibly after one
straddle retry). -/
lemma write_isSome (pot off size : Nat) (hpot : 2 ≤ pot) (hsz : 1 ≤ size)
    (hbound : size ≤ 2 ^ pot / 4) : (Recorder.write pot off size).isSome := by
  have hP : 0 < 2 ^ pot := pow_pos (by norm_num) pot
  have hX : 2 ^ pot / 4 = 2 ^ (pot - 2) := two_pow_div_four pot hpot
  have hP4 : 2 ^ pot = 4 * 2 ^ (pot - 2) := two_pow_eq_four_mul pot hpot
  have hdm : 2 ^ pot * (off / 2 ^ pot) + off % 2 ^ pot = off := Nat.div_add_mod off (2 ^ pot)
  have hmlt : off % 2 ^ pot < 2 ^ pot := Nat.mod_lt _ hP
  by_cases hstr : 2 ^ pot < off % 2 ^ pot + size
  · rw [write_straddle_eval pot off size hpot hsz hbound hstr]
    rfl
  · have h1 : (off + size - 1) / 2 ^ pot = off / 2 ^ pot := by
      have hqP : (off / 2 ^ pot) * 2 ^ pot = 2 ^ pot * (off / 2 ^ pot) := by ring
      have he : off + size - 1 =
          (off % 2 ^ pot + size - 1) + (off / 2 ^ pot) * 2 ^ pot := by
        rw [hqP]; omega
      rw [he, Nat.add_mul_div_right _ _ hP, Nat.div_eq_of_lt (by omega)]
      omega
    have e2 := writeAux_succ pot 1 off size
    norm_num at e2
    unfold Recorder.write
    rw [e2, if_neg (by omega), if_pos (by omega)]
    by_cases h0 : (off + size) % 2 ^ pot = 0
    · rw [if_pos h0]; rfl
    · rw [if_neg h0]; rfl

/-! ## C1: chapter-boundary straddling -/

/-- **C1, counterexample.**  With `chapter_size = 4096` and the global
offset at 4090, a 10-byte append straddles the boundary.  The claim
says the retried record is placed at in-chapter offset 0 of chapter 1
and the next slot's `data_offset` is set to 0; the code places it at
in-chapter offset 4 = `(4090 + 10) % 4096` and stores `data_offset =
4`, zero-filling `4090..4096` of chapter 0 *and* `0..4` of chapter 1. -/
theorem chapter_straddle_counterexample :
    (Recorder.write 12 4090 10).map Recorder.WriteEffects.placedOffset = some 4 ∧
    (Recorder.write 12 4090 10).map Recorder.WriteEffects.dataOffsetStores = some [(1, 4)] ∧
    (4 : Nat) ≠ 0 := by
  refine ⟨?_, ?_, by norm_num⟩ <;> rfl

/-- **C1, amended.**  For every straddling append (of accepted size),
the writer flushes the current chapter with `end_offset` equal to the
record's in-chapter offset, zero-padding the tail of the old chapter;
but the next slot's `data_offset` is set to `(start + size) % 2 ^ pot`
— the end of the *abandoned* reservation, which is nonzero, not 0 —
the same prefix `0 .. (start + size) % 2 ^ pot` of the next chapter is
zero-filled, and the retried record is placed entirely in the next
chapter at that same nonzero in-chapter offset (not at offset 0). -/
theorem chapter_straddle_retry (pot off size : Nat) (hpot : 2 ≤ pot) (hsz : 1 ≤ size)
    (hbound : size ≤ 2 ^ pot / 4) (hstr : 2 ^ pot < off % 2 ^ pot + size) :
    Recorder.write pot off size = some
      { placedChapter := off / 2 ^ pot + 1
        placedOffset := (off + size) % 2 ^ pot
        newOffset := off + size + size
        finishes := [(off / 2 ^ pot, off % 2 ^ pot)]
        dataOffsetStores := [(off / 2 ^ pot + 1, (off + size) % 2 ^ pot)]
        zeroFills := [(off / 2 ^ pot, off % 2 ^ pot, 2 ^ pot),
                      (off / 2 ^ pot + 1, 0, (off + size) % 2 ^ pot)] } ∧
    0 < (off + size) % 2 ^ pot ∧
    (off + size) % 2 ^ pot + size ≤ 2 ^ pot := by
  have hP : 0 < 2 ^ pot := pow_pos (by norm_num) pot
  have hX : 2 ^ pot / 4 = 2 ^ (pot - 2) := two_pow_div_four pot hpot
  have hP4 : 2 ^ pot = 4 * 2 ^ (pot - 2) := two_pow_eq_four_mul pot hpot
  have hdm : 2 ^ pot * (off / 2 ^ pot) + off % 2 ^ pot = off := Nat.div_add_mod off (2 ^ pot)
  have hmlt : off % 2 ^ pot < 2 ^ pot := Nat.mod_lt _ hP
  have h3 : (off + size) % 2 ^ pot = off % 2 ^ pot + size - 2 ^ pot := by
    have hqP : (off / 2 ^ pot + 1) * 2 ^ pot = 2 ^ pot * (off / 2 ^ pot) + 2 ^ pot := by ring
    have he : off + size =
        (off % 2 ^ pot + size - 2 ^ pot) + (off / 2 ^ pot + 1) * 2 ^ pot := by
      rw [hqP]; omega
    rw [he, Nat.add_mul_mod_self_right, Nat.mod_eq_of_lt (by omega)]
  refine ⟨write_straddle_eval pot off size hpot hsz hbound hstr, by omega, by omega⟩

/-- **C1, witness** for `chapter_straddle_retry` at `pot = 12`,
`off = 4090`, `size = 10`. -/
theorem chapter_straddle_retry_witness :
    Recorder.write 12 4090 10 = some
      { placedChapter := 4090 / 2 ^ 12 + 1
        placedOffset := (4090 + 10) % 2 ^ 12
        newOffset := 4090 + 10 + 10
        finishes := [(4090 / 2 ^ 12, 4090 % 2 ^ 12)]
        dataOffsetStores := [(4090 / 2 ^ 12 + 1, (4090 + 10) % 2 ^ 12)]
        zeroFills := [(4090 / 2 ^ 12, 4090 % 2 ^ 12, 2 ^ 12),
                      (4090 / 2 ^ 12 + 1, 0, (4090 + 10) % 2 ^ 12)] } ∧
    0 < (4090 + 10) % 2 ^ 12 ∧
    (4090 + 10) % 2 ^ 12 + 10 ≤ 2 ^ 12 :=
  chapter_straddle_retry 12 4090 10 (by norm_num) (by norm_num) (by norm_num) (by norm_num)

/-! ## C7: the record-size bound -/

/-- **C7, counterexample.**  The claim says every append of size
`≥ chapter_size / 4` is rejected; with the recorder's chapter size
`2 ^ 20` the append of size `2 ^ 18 = chapter_size / 4` is accepted. -/
theorem record_too_large_counterexample :
    (Recorder.write 20 0 (2 ^ 18)).isSome = true ∧
    Recorder.recordTooLarge 20 (2 ^ 18) = false ∧
    2 ^ 20 / 4 ≤ 2 ^ 18 := by
  refine ⟨?_, by norm_num [Recorder.recordTooLarge], by norm_num⟩
  rfl

/-- **C7, amended.**  An append is rejected as fatal (`panic!("record
too large")`) exactly when its size is *strictly greater* than
`chapter_size / 4`: sizes `≤ chapter_size / 4` (including
`chapter_size / 4` itself) always succeed. -/
theorem record_size_bound (pot off size : Nat) (hpot : 2 ≤ pot) (hsz : 1 ≤ size) :
    (Recorder.write pot off size = none ↔ 2 ^ pot / 4 < size) ∧
    (Recorder.recordTooLarge pot size = true ↔ 2 ^ pot / 4 < size) := by
  constructor
  · constructor
    · intro h
      by_contra hc
      have := write_isSome pot off size hpot hsz (by omega)
      rw [h] at this
      simp at this
    · intro h
      have e2 := writeAux_succ pot 1 off size
      norm_num at e2
      unfold Recorder.write
      rw [e2, if_pos h]
  · simp [Recorder.recordTooLarge]

/-- **C7, witness** for `record_size_bound` at `pot = 20`, `off = 0`,
`size = 2 ^ 18 + 1` (rejected) — and the bound is tight there. -/
theorem record_size_bound_witness :
    (Recorder.write 20 0 (2 ^ 18 + 1) = none ↔ 2 ^ 20 / 4 < 2 ^ 18 + 1) ∧
    (Recorder.recordTooLarge 20 (2 ^ 18 + 1) = true ↔ 2 ^ 20 / 4 < 2 ^ 18 + 1) :=
  record_size_bound 20 0 (2 ^ 18 + 1) (by norm_num) (by norm_num)

/-! ## C6: the empty tape -/

/-- **C6, counterexample.**  On a tape holding only the intro (with
`timestamp_base = 0`), `time_range()` is
`(base + i64::MAX, base + i64::MIN) = (2^63 - 1, -2^63)`, not the
collapsed range `base..=base = (0, 0)` the claim states. -/
theorem empty_tape_time_range_counterexample :
    (Tape.parse (introBytes 20 0)).map Tape.time_range =
      some ((2 : Int) ^ 63 - 1, -((2 : Int) ^ 63)) ∧
    ((2 : Int) ^ 63 - 1, -((2 : Int) ^ 63)) ≠ ((0 : Int), (0 : Int)) := by
  refine ⟨by decide, by decide⟩

/-- **C6, amended.**  Parsing a 32-byte intro-only input yields zero
callsites, zero events, zero spans, `min_timestamp = i64::MAX` and
`max_timestamp = i64::MIN` — as the claim states — but `time_range()`
is then `(timestamp_base + i64::MAX, timestamp_base + i64::MIN)` (an
inverted, empty range), not `timestamp_base..=timestamp_base`. -/
theorem empty_tape (intro : List Nat) (h : intro.length = 32) :
    (Tape.parse intro).map (fun t =>
      (t.data.callsites.length, t.data.events.length, t.data.spans.length,
       t.data.min_timestamp, t.data.max_timestamp, t.time_range)) =
    some (0, 0, 0, 2 ^ 63 - 1, -(2 ^ 63),
      (readI128 intro 16 + (2 ^ 63 - 1), readI128 intro 16 - 2 ^ 63)) := by
  have hI : Intro.read intro = some
      { magic := readBytes intro 0 8, version_major := readU8 intro 8,
        version_minor := readU8 intro 9, chapter_size_pot := readU8 intro 10,
        timestamp_base := readI128 intro 16 } := by
    rw [Intro.read, if_neg (by omega)]
  have hD : intro.drop 32 = [] := List.drop_eq_nil_of_le (by omega)
  have hN : TapeData.new Intermediate.start =
      some { min_timestamp := 2 ^ 63 - 1, max_timestamp := -(2 ^ 63), callsites := [],
             events := [], spans := [], span_edges := [], root_spans := [], threads := [] } := rfl
  simp only [Tape.parse, hI, hD, Intermediate.parse, List.length_nil, parseRecords, hN,
    Option.map_some']
  simp [Tape.time_range, Int.sub_eq_add_neg]

/-- **C6, witness** for `empty_tape` at a concrete intro. -/
theorem empty_tape_witness :
    (Tape.parse (introBytes 20 0)).map (fun t =>
      (t.data.callsites.length, t.data.events.length, t.data.spans.length,
       t.data.min_timestamp, t.data.max_timestamp, t.time_range)) =
    some (0, 0, 0, 2 ^ 63 - 1, -(2 ^ 63),
      (readI128 (introBytes 20 0) 16 + (2 ^ 63 - 1), readI128 (introBytes 20 0) 16 - 2 ^ 63)) :=
  empty_tape (introBytes 20 0) (by decide)

/-! ## C8: no container validation in `Tape::parse` -/

/-- **C8, counterexample.**  An input whose first 8 bytes are not
`TAPEFILE` and whose version-major byte is 9 parses successfully:
`Tape::parse` performs no magic or version check at all (the claimed
`InvalidMagic` / `UnknownVersion` rejections do not exist). -/
theorem magic_not_validated_counterexample :
    (Tape.parse badIntroTape).isSome = true ∧
    readBytes badIntroTape 0 8 ≠ [84, 65, 80, 69, 70, 73, 76, 69] ∧
    readU8 badIntroTape 8 = 9 := by
  refine ⟨by decide, by decide, by decide⟩

/-- **C8, amended.**  `Tape::parse` does not validate the container: it
reads the 32-byte intro unconditionally — the parse outcome is the same
for *every* 32-byte intro, whatever its magic and version bytes — and
it fails on short input only because the `zerocopy` read needs 32
bytes. -/
theorem intro_unvalidated (i r : List Nat) (h : i.length = 32) :
    (Tape.parse (i ++ r)).isSome =
      ((Intermediate.parse Intermediate.start r).bind TapeData.new).isSome ∧
    ∀ d : List Nat, d.length < 32 → Tape.parse d = none := by
  constructor
  · have hI : Intro.read (i ++ r) = some
        { magic := readBytes (i ++ r) 0 8, version_major := readU8 (i ++ r) 8,
          version_minor := readU8 (i ++ r) 9, chapter_size_pot := readU8 (i ++ r) 10,
          timestamp_base := readI128 (i ++ r) 16 } := by
      rw [Intro.read, if_neg (by simp [h])]
    have hD : (i ++ r).drop 32 = r := List.drop_left' h
    simp only [Tape.parse, hI, hD]
    cases hP : Intermediate.parse Intermediate.start r with
    | none => simp
    | some ist =>
      cases hN : TapeData.new ist with
      | none => simp [hN]
      | some d => simp [hN]
  · intro d hd
    have hI : Intro.read d = none := by rw [Intro.read, if_pos hd]
    simp only [Tape.parse, hI]

/-- **C8, witness** for `intro_unvalidated` at the garbage intro. -/
theorem intro_unvalidated_witness :
    ((Tape.parse (badIntroTape ++ [])).isSome =
      ((Intermediate.parse Intermediate.start []).bind TapeData.new).isSome) ∧
    ∀ d : List Nat, d.length < 32 → Tape.parse d = none :=
  intro_unvalidated badIntroTape [] (by decide)

/-! ## C9: callsite promotion fills the vector capacity

The invariant: every callsite ever pushed to the completed list was
pushed by `callsite_field` at the moment a pushed field filled the
vector capacity, so it has `fields.length = cap` and at least one
field.  The capacity equals the declared count only for
`field_count >= 1`; a zero-declaring callsite is promoted when spurious
field records fill the grown capacity 4. -/

lemma callsite_callsites {st : Intermediate} {slice : List Nat} {p}
    (h : st.callsite slice = some p) : p.1.callsites = st.callsites := by
  unfold Intermediate.callsite at h
  cases hp : IntermediateCallsite.parse slice with
  | none => rw [hp] at h; exact Option.noConfusion h
  | some q =>
    rw [hp] at h
    simp only [Option.map_some'] at h
    injection h with h
    subst h
    rfl

lemma event_callsites {st : Intermediate} {slice : List Nat} {p}
    (h : st.event slice = some p) : p.1.callsites = st.callsites := by
  simp only [Intermediate.event] at h
  repeat' split at h
  all_goals (try exact Option.noConfusion h)
  all_goals (injection h with h; subst h; rfl)

lemma eventValue_callsites {st : Intermediate} {slice : List Nat} {p}
    (h : st.eventValue slice = some p) : p.1.callsites = st.callsites := by
  simp only [Intermediate.eventValue] at h
  repeat' split at h
  all_goals (try exact Option.noConfusion h)
  all_goals (injection h with h; subst h; rfl)

lemma openSpan_callsites {st : Intermediate} {slice : List Nat} {p}
    (h : st.openSpan slice = some p) : p.1.callsites = st.callsites := by
  simp only [Intermediate.openSpan] at h
  repeat' split at h
  all_goals (try exact Option.noConfusion h)
  all_goals (injection h with h; subst h; rfl)

lemma enterSpan_callsites {st : Intermediate} {slice : List Nat} {p}
    (h : st.enterSpan slice = some p) : p.1.callsites = st.callsites := by
  simp only [Intermediate.enterSpan] at h
  repeat' split at h
  all_goals (try exact Option.noConfusion h)
  all_goals (injection h with h; subst h; rfl)

lemma exitSpan_callsites {st : Intermediate} {slice : List Nat} {p}
    (h : st.exitSpan slice = some p) : p.1.callsites = st.callsites := by
  simp only [Intermediate.exitSpan] at h
  repeat' split at h
  all_goals (try exact Option.noConfusion h)
  all_goals (injection h with h; subst h; rfl)

lemma closeSpan_callsites {st : Intermediate} {slice : List Nat} {p}
    (h : st.closeSpan slice = some p) : p.1.callsites = st.callsites := by
  simp only [Intermediate.closeSpan] at h
  repeat' split at h
  all_goals (try exact Option.noConfusion h)
  all_goals (injection h with h; subst h; rfl)

lemma spanValue_callsites {st : Intermediate} {slice : List Nat} {p}
    (h : st.spanValue slice = some p) : p.1.callsites = st.callsites := by
  simp only [Intermediate.spanValue] at h
  repeat' split at h
  all_goals (try exact Option.noConfusion h)
  all_goals (injection h with h; subst h; rfl)

/-- `callsite_field` either leaves the completed list unchanged or
promotes one callsite whose accumulated fields fill its capacity
(which is then nonzero). -/
lemma callsiteField_callsites {st : Intermediate} {slice : List Nat} {p}
    (h : st.callsiteField slice = some p) :
    p.1.callsites = st.callsites ∨ ∃ cs : IntermediateCallsite,
      p.1.callsites = st.callsites ++ [cs] ∧ cs.fields.length = cs.cap ∧
      cs.fields ≠ [] := by
  simp only [Intermediate.callsiteField] at h
  split at h
  · exact Option.noConfusion h
  · split at h
    · exact Option.noConfusion h
    · split at h
      · exact Option.noConfusion h
      · next cs hcs =>
        split at h
        · next hlen =>
          right
          injection h with h
          subst h
          exact ⟨_, rfl, hlen, by simp⟩
        · left
          injection h with h
          subst h
          rfl

set_option maxHeartbeats 1000000 in
/-- The promotion invariant is preserved by every dispatch step. -/
lemma parseStep_callsites_inv {st : Intermediate} {data : List Nat} {p}
    (h : parseStep st data = some p)
    (hP : ∀ cs ∈ st.callsites, cs.fields.length = cs.cap ∧ cs.fields ≠ []) :
    ∀ cs ∈ p.1.callsites, cs.fields.length = cs.cap ∧ cs.fields ≠ [] := by
  simp only [parseStep] at h
  split at h
  · exact Option.noConfusion h
  · split at h
    · cases h; exact hP
    · split at h
      · rw [callsite_callsites h]; exact hP
      · split at h
        · rcases callsiteField_callsites h with heq | ⟨cs, heq, hl, hne⟩
          · rw [heq]; exact hP
          · rw [heq]
            intro c hc
            rcases List.mem_append.mp hc with hc | hc
            · exact hP c hc
            · rcases List.mem_singleton.mp hc with rfl
              exact ⟨hl, hne⟩
        · split at h
          · rw [openSpan_callsites h]; exact hP
          · split at h
            · rw [enterSpan_callsites h]; exact hP
            · split at h
              · rw [exitSpan_callsites h]; exact hP
              · split at h
                · rw [closeSpan_callsites h]; exact hP
                · split at h
                  · rw [spanValue_callsites h]; exact hP
                  · split at h
                    · rw [event_callsites h]; exact hP
                    · split at h
                      · rw [eventValue_callsites h]; exact hP
                      · split at h
                        · exact Option.noConfusion h
                        · cases h; exact hP

/-- The promotion invariant is preserved by the whole record loop. -/
lemma parseRecords_callsites_inv :
    ∀ (fuel : Nat) (st : Intermediate) (data : List Nat) (st' : Intermediate),
      parseRecords fuel st data = some st' →
      (∀ cs ∈ st.callsites, cs.fields.length = cs.cap ∧ cs.fields ≠ []) →
      ∀ cs ∈ st'.callsites, cs.fields.length = cs.cap ∧ cs.fields ≠ []
  | 0, _, _, _, h, _ => Option.noConfusion h
  | fuel + 1, st, data, st', h, hP => by
    match data with
    | [] =>
      simp only [parseRecords] at h
      cases h
      exact hP
    | b :: rest =>
      simp only [parseRecords] at h
      split at h
      · exact Option.noConfusion h
      · next p hp =>
        exact parseRecords_callsites_inv fuel p.1 p.2 st' h (parseStep_callsites_inv hp hP)

/-- Extraction: a successful `TapeData::new` maps the completed
callsites one-for-one into the final model. -/
lemma new_callsites {ist : Intermediate} {t : TapeData} (h : TapeData.new ist = some t) :
    t.callsites = ist.callsites.map IntermediateCallsite.toCallsite := by
  simp only [TapeData.new] at h
  split at h
  · exact Option.noConfusion h
  · split at h
    · exact Option.noConfusion h
    · split at h
      · exact Option.noConfusion h
      · cases h
        rfl

set_option maxRecDepth 16000 in
/-- **C9, counterexample.**  A `CALLSITE` record that declares
`field_count = 0` *can* be promoted: its field vector has capacity 0,
the first spurious `CALLSITE_FIELD` push grows the capacity to 4, and
the fourth push fills it, so the source pushes the callsite into
`callsites()` (with the four spurious fields) — whereas without field
records it is indeed never promoted. -/
theorem zero_field_promotion_counterexample :
    (Tape.parse zeroFieldPromotedTape).map (fun t => t.data.callsites)
      = some [Callsite.event
          { levelCode := 0, name := [], target := [], module_path := [],
            file := none, line := none, fields := [[], [], [], []] }] ∧
    (Tape.parse zeroFieldCallsiteTape).map (fun t => t.data.callsites) = some [] :=
  ⟨rfl, rfl⟩

/-- **C9, amended.**  Promotion happens in `callsite_field` when the
pushed field fills the vector capacity: the declared count for
`field_count ≥ 1`, but the grown capacity 4 for a callsite declared
with zero fields, which four spurious `CALLSITE_FIELD` records
therefore promote (see the counterexample).  Every promoted callsite
has filled its capacity with at least one pushed field, so
`callsites()` never contains a zero-field callsite object; a
zero-declaring callsite with no field records is never promoted. -/
theorem callsite_promotion_at_capacity (d : List Nat) (st : Intermediate)
    (h : Intermediate.parse Intermediate.start d = some st) :
    (∀ cs ∈ st.callsites, cs.fields.length = cs.cap ∧ cs.fields ≠ []) ∧
    (∀ t, TapeData.new st = some t → ∀ c ∈ t.callsites, c.metadata.fields ≠ []) := by
  have h1 := parseRecords_callsites_inv _ _ _ _ h (by simp [Intermediate.start])
  refine ⟨h1, ?_⟩
  intro t ht c hc
  rw [new_callsites ht] at hc
  obtain ⟨ics, hmem, rfl⟩ := List.mem_map.mp hc
  have hne := (h1 ics hmem).2
  simp only [IntermediateCallsite.toCallsite]
  split
  · simp [Callsite.metadata, IntermediateCallsite.toMetadata, hne]
  · simp [Callsite.metadata, IntermediateCallsite.toMetadata, hne]

/-- **C9, witness** for `callsite_promotion_at_capacity`: the tape
holding a single well-formed zero-field `CALLSITE` record parses to a
state whose completed-callsite list is empty, and the invariant holds
there. -/
theorem callsite_promotion_at_capacity_witness :
    ∃ st : Intermediate,
      Intermediate.parse Intermediate.start (callsiteRecordBytes 26 0 0 5 [] [] [] [] 0) = some st ∧
      st.callsites = [] ∧
      ((∀ cs ∈ st.callsites, cs.fields.length = cs.cap ∧ cs.fields ≠ []) ∧
       (∀ t, TapeData.new st = some t → ∀ c ∈ t.callsites, c.metadata.fields ≠ [])) :=
  ⟨_, rfl, rfl,
    callsite_promotion_at_capacity (callsiteRecordBytes 26 0 0 5 [] [] [] [] 0) _ rfl⟩


/-! ## C3: round trip of a sequence of producer event calls -/

/-- Each producer call contributes 57 bytes (29-byte event record plus
28-byte single-u64 value record). -/
lemma rtEventsBytes_length (S : List (Nat × Nat × Nat)) :
    (rtEventsBytes S).length = 57 * S.length := by
  induction S with
  | nil => rfl
  | cons e S ih =>
    simp [rtEventsBytes, rtEventPair, eventRecordBytes, eventValueRecordBytes,
      recordHeaderBytes, length_natToLE, ih]
    omega

/-- Two record-loop steps consume one producer call: the event record
parks a pending event on the thread, the value record completes it and
promotes it to `events`. -/
lemma parseRecords_rtEventPair (fuel : Nat) (st : Intermediate) (e : Nat × Nat × Nat)
    (rest : List Nat) (hts : e.1 < 2 ^ 64) (htid : e.2.1 < 2 ^ 64) (hv : e.2.2 < 2 ^ 64)
    (hie : st.intermediate_events = []) :
    parseRecords (fuel + 1 + 1) st (rtEventPair e ++ rest) =
      parseRecords fuel
        { st with
          threads := if (lookupA st.threads e.2.1).isSome then st.threads
                     else st.threads ++ [(e.2.1, none)]
          intermediate_events := []
          events := st.events ++ [rtIntermediate e]
          min_timestamp := min st.min_timestamp (toSigned 64 e.1)
          max_timestamp := max st.max_timestamp (toSigned 64 e.1) } rest := by
  rw [show rtEventPair e ++ rest
      = eventRecordBytes 1 e.1 1 e.2.1 ++
        (eventValueRecordBytes 2 2 e.2.1 (natToLE 8 e.2.2) ++ rest)
    from by simp [rtEventPair]]
  rw [parseRecords_event (fuel + 1) st 1 e.1 1 e.2.1 _ (by norm_num) hts (by norm_num) htid
    (by rw [hie]; rfl)]
  rw [if_neg (by norm_num : ¬(1 : Nat) = 0)]
  have hpend : lookupA ({ st with
      threads := if (lookupA st.threads e.2.1).isSome then st.threads
                 else st.threads ++ [(e.2.1, none)]
      intermediate_events := insertA st.intermediate_events e.2.1
        { timestamp := toSigned 64 e.1, callsite_id := 1, valueCount := 1, values := [] }
      min_timestamp := min st.min_timestamp (toSigned 64 e.1)
      max_timestamp := max st.max_timestamp (toSigned 64 e.1) } :
        Intermediate).intermediate_events e.2.1
      = some { timestamp := toSigned 64 e.1, callsite_id := 1, valueCount := 1,
               values := [] } := by
    simp [hie, insertA, lookupA]
  rw [parseRecords_eventValue fuel _ 2 e.2.1 e.2.2 rest _ (by norm_num) htid hv hpend]
  simp [hie, insertA, removeA, rtIntermediate]

/-- Running the record loop over a serialized call sequence starting
from a state with no pending event accumulates exactly one
`rtIntermediate` event per call, touching nothing but the timestamp
bounds and the thread table. -/
lemma parseRecords_rtEvents (S : List (Nat × Nat × Nat)) :
    ∀ (fuel : Nat) (st : Intermediate),
      (∀ e ∈ S, e.1 < 2 ^ 64 ∧ e.2.1 < 2 ^ 64 ∧ e.2.2 < 2 ^ 64) →
      st.intermediate_events = [] →
      ∃ st1, parseRecords (2 * S.length + fuel) st (rtEventsBytes S) = parseRecords fuel st1 []
        ∧ st1.events = st.events ++ S.map rtIntermediate
        ∧ st1.intermediate_events = []
        ∧ st1.callsites = st.callsites
        ∧ st1.span_nodes = st.span_nodes
        ∧ st1.span_edges = st.span_edges
        ∧ st1.root_nodes = st.root_nodes := by
  induction S with
  | nil =>
    intro fuel st _ hie
    exact ⟨st, by simp [rtEventsBytes], by simp, hie, rfl, rfl, rfl, rfl⟩
  | cons e S ih =>
    intro fuel st hWF hie
    obtain ⟨hts, htid, hv⟩ := hWF e (List.mem_cons_self e S)
    have hfuel : 2 * (e :: S).length + fuel = 2 * S.length + fuel + 1 + 1 := by
      simp only [List.length_cons]
      omega
    rw [show rtEventsBytes (e :: S) = rtEventPair e ++ rtEventsBytes S from rfl, hfuel,
      parseRecords_rtEventPair (2 * S.length + fuel) st e (rtEventsBytes S) hts htid hv hie]
    obtain ⟨st1, h1, hev, hie1, hcs, hsn, hse, hrn⟩ := ih fuel
      { st with
        threads := if (lookupA st.threads e.2.1).isSome then st.threads
                   else st.threads ++ [(e.2.1, none)]
        intermediate_events := []
        events := st.events ++ [rtIntermediate e]
        min_timestamp := min st.min_timestamp (toSigned 64 e.1)
        max_timestamp := max st.max_timestamp (toSigned 64 e.1) }
      (fun x hx => hWF x (List.mem_cons_of_mem e hx)) rfl
    exact ⟨st1, h1, by simp [hev], hie1, hcs, hsn, hse, hrn⟩

/-- `mapOpt` over a list on which `f` never fails. -/
lemma mapOpt_of_forall {A B : Type} (f : A → Option B) (g : A → B) :
    ∀ (L : List A), (∀ x ∈ L, f x = some (g x)) → mapOpt f L = some (L.map g)
  | [], _ => rfl
  | a :: L, h => by
    simp only [mapOpt, h a (List.mem_cons_self a L),
      mapOpt_of_forall f g L (fun x hx => h x (List.mem_cons_of_mem a hx)),
      List.map_cons, Option.map_some']

/-- Every element of a successful `mapOpt` image comes from an element
of the input list. -/
lemma mem_of_mapOpt {A B : Type} (f : A → Option B) :
    ∀ (L : List A) (M : List B), mapOpt f L = some M → ∀ y ∈ M, ∃ x ∈ L, f x = some y
  | [], M, h, y, hy => by
    injection h with h
    subst h
    exact absurd hy (List.not_mem_nil y)
  | a :: L, M, h, y, hy => by
    simp only [mapOpt] at h
    split at h
    · exact Option.noConfusion h
    · rename_i b hb
      cases hM : mapOpt f L with
      | none => rw [hM] at h; exact Option.noConfusion h
      | some M1 =>
        rw [hM, Option.map_some'] at h
        injection h with h
        subst h
        rcases List.mem_cons.1 hy with rfl | hy1
        · exact ⟨a, List.mem_cons_self a L, hb⟩
        · obtain ⟨x, hx, hfx⟩ := mem_of_mapOpt f L M1 hM y hy1
          exact ⟨x, List.mem_cons_of_mem a hx, hfx⟩

/-- Conversion of a single round-trip intermediate event in
`TapeData::new`. -/
lemma toFinalEvent_rt (e : Nat × Nat × Nat) :
    toFinalEvent [(1, 0)] [((1, 2), 0)] (rtIntermediate e)
      = some (convEvent (rtIntermediate e)) := rfl

/-- `convEvent` preserves the timestamp key, so mapping it commutes
with one ordered insertion. -/
lemma map_orderedInsert_convEvent (a : IntermediateEvent) (M : List IntermediateEvent) :
    (List.orderedInsert eventTimestampLE a M).map convEvent
      = List.orderedInsert finalEventLE (convEvent a) (M.map convEvent) := by
  induction M with
  | nil => rfl
  | cons b M ih =>
    simp only [List.orderedInsert, List.map_cons]
    by_cases h : eventTimestampLE a b
    · rw [if_pos h, if_pos (show finalEventLE (convEvent a) (convEvent b) from h)]
      simp
    · rw [if_neg h, if_neg (show ¬ finalEventLE (convEvent a) (convEvent b) from h)]
      simp [ih]

/-- Mapping `convEvent` commutes with the stable timestamp sort. -/
lemma map_insertionSort_convEvent (L : List IntermediateEvent) :
    (List.insertionSort eventTimestampLE L).map convEvent
      = List.insertionSort finalEventLE (L.map convEvent) := by
  induction L with
  | nil => rfl
  | cons a L ih =>
    simp only [List.insertionSort, List.map_cons]
    rw [map_orderedInsert_convEvent, ih]

/-- Converting the accumulated intermediate events of a call sequence
yields exactly the emitted events. -/
lemma map_convEvent_rtIntermediate (S : List (Nat × Nat × Nat)) :
    (S.map rtIntermediate).map convEvent = S.map emittedEvent := by
  induction S with
  | nil => rfl
  | cons e S ih =>
    simp only [List.map_cons, ih, show convEvent (rtIntermediate e) = emittedEvent e from rfl]

/-- Finalization of a state that holds the round-trip callsite, no
spans and no pending anything: only the events are converted. -/
lemma new_eventsOnly (ist : Intermediate) (E : List Event)
    (hcs : ist.callsites = [rtCallsite]) (hsn : ist.span_nodes = [])
    (hse : ist.span_edges = []) (hrn : ist.root_nodes = [])
    (hmap : mapOpt (toFinalEvent [(1, 0)] [((1, 2), 0)])
      (List.insertionSort eventTimestampLE ist.events) = some E) :
    TapeData.new ist = some
      { min_timestamp := ist.min_timestamp, max_timestamp := ist.max_timestamp,
        callsites := [rtCallsite.toCallsite], events := E, spans := [],
        span_edges := [], root_spans := [], threads := ist.threads } := by
  simp only [TapeData.new, hcs, hsn, hse, hrn,
    show buildCallsiteMapAux [rtCallsite] 0 [] = [(1, 0)] from rfl,
    show buildFieldMapAux [rtCallsite] [] = [((1, 2), 0)] from rfl, hmap]
  rfl

set_option maxRecDepth 16000 in
set_option maxHeartbeats 2000000 in
/-- **C3, counterexample.**  The parsed `Event` carries no thread id:
two tapes that differ only in the emitting thread id (3 versus 7, both
recorded in the tape and visible in `threads()`) parse to *identical*
event lists, so the parsed events cannot reproduce the thread id of the
emitting call. -/
theorem event_thread_id_counterexample :
    (Tape.parse (singleEventTape 3)).map (fun t => t.data.threads) = some [(3, none)] ∧
    (Tape.parse (singleEventTape 7)).map (fun t => t.data.threads) = some [(7, none)] ∧
    (Tape.parse (singleEventTape 3)).map (fun t => t.data.events)
      = (Tape.parse (singleEventTape 7)).map (fun t => t.data.events) ∧
    (Tape.parse (singleEventTape 3)).map (fun t => t.data.events)
      = some [{ timestamp := 5, callsite_index := 0, values := [] }] :=
  ⟨rfl, rfl, rfl, rfl⟩

/-- **C3, amended.**  Parsing the tape of a finite sequence of producer
event calls yields exactly one parsed event per emitted event — equal
callsite index and values, with the timestamp of the call — sorted by
timestamp; the thread id, however, is not part of the parsed events
(see the counterexample). -/
theorem event_round_trip (S : List (Nat × Nat × Nat))
    (hWF : ∀ e ∈ S, e.1 < 2 ^ 64 ∧ e.2.1 < 2 ^ 64 ∧ e.2.2 < 2 ^ 64) :
    ∃ t, Tape.parse (roundTripTape S) = some t ∧
      t.data.events = List.insertionSort finalEventLE (S.map emittedEvent) ∧
      t.data.events.Perm (S.map emittedEvent) ∧
      List.Sorted finalEventLE t.data.events := by
  obtain ⟨st1, hrun, hev, hie1, hcs1, hsn1, hse1, hrn1⟩ :=
    parseRecords_rtEvents S 1 rtState1 hWF rfl
  have hI : Intro.read (roundTripTape S) = some
      { magic := readBytes (roundTripTape S) 0 8,
        version_major := readU8 (roundTripTape S) 8,
        version_minor := readU8 (roundTripTape S) 9,
        chapter_size_pot := readU8 (roundTripTape S) 10,
        timestamp_base := readI128 (roundTripTape S) 16 } := by
    rw [Intro.read, if_neg (by
      simp only [roundTripTape, List.length_append, introBytes, rtPrelude,
        callsiteRecordBytes, callsiteFieldRecordBytes, recordHeaderBytes,
        List.length_cons, List.length_nil, length_natToLE]
      omega)]
  have hD : (roundTripTape S).drop 32 = rtPrelude ++ rtEventsBytes S := by
    rw [show roundTripTape S = introBytes 20 0 ++ (rtPrelude ++ rtEventsBytes S) from by
      simp [roundTripTape]]
    exact List.drop_left' (by simp [introBytes, length_natToLE])
  have hsmall : parseRecords (2 * S.length + 1 + 2) Intermediate.start
      (rtPrelude ++ rtEventsBytes S) = some st1 := by
    rw [parseRecords_rtPrelude (2 * S.length + 1) (rtEventsBytes S), hrun]
    rfl
  have hparse : Intermediate.parse Intermediate.start (rtPrelude ++ rtEventsBytes S)
      = some st1 := by
    show parseRecords ((rtPrelude ++ rtEventsBytes S).length + 1) Intermediate.start
      (rtPrelude ++ rtEventsBytes S) = some st1
    refine parseRecords_mono _ _ _ _ _ hsmall ?_
    simp only [List.length_append, rtEventsBytes_length,
      show rtPrelude.length = 49 from rfl]
    omega
  have hmap : mapOpt (toFinalEvent [(1, 0)] [((1, 2), 0)])
      (List.insertionSort eventTimestampLE st1.events)
      = some (List.insertionSort finalEventLE (S.map emittedEvent)) := by
    have hall : ∀ x ∈ List.insertionSort eventTimestampLE st1.events,
        toFinalEvent [(1, 0)] [((1, 2), 0)] x = some (convEvent x) := by
      intro x hx
      have hx1 : x ∈ st1.events :=
        (List.perm_insertionSort eventTimestampLE st1.events).mem_iff.1 hx
      rw [hev] at hx1
      have hx2 : x ∈ S.map rtIntermediate := by
        simpa [rtState1, Intermediate.start] using hx1
      obtain ⟨e, _, he⟩ := List.mem_map.1 hx2
      rw [← he]
      exact toFinalEvent_rt e
    rw [mapOpt_of_forall _ convEvent _ hall, map_insertionSort_convEvent]
    have hevS : st1.events = S.map rtIntermediate := by
      rw [hev]
      simp [rtState1, Intermediate.start]
    rw [hevS, map_convEvent_rtIntermediate]
  have hnew : TapeData.new st1 = some
      { min_timestamp := st1.min_timestamp, max_timestamp := st1.max_timestamp,
        callsites := [rtCallsite.toCallsite],
        events := List.insertionSort finalEventLE (S.map emittedEvent),
        spans := [], span_edges := [], root_spans := [], threads := st1.threads } :=
    new_eventsOnly st1 _ hcs1 hsn1 hse1 hrn1 hmap
  refine ⟨{ intro := { magic := readBytes (roundTripTape S) 0 8,
                       version_major := readU8 (roundTripTape S) 8,
                       version_minor := readU8 (roundTripTape S) 9,
                       chapter_size_pot := readU8 (roundTripTape S) 10,
                       timestamp_base := readI128 (roundTripTape S) 16 },
            data := { min_timestamp := st1.min_timestamp, max_timestamp := st1.max_timestamp,
                      callsites := [rtCallsite.toCallsite],
                      events := List.insertionSort finalEventLE (S.map emittedEvent),
                      spans := [], span_edges := [], root_spans := [],
                      threads := st1.threads } }, ?_, rfl, ?_, ?_⟩
  · simp only [Tape.parse, hI, hD, hparse, hnew, Option.map_some']
  · exact List.perm_insertionSort finalEventLE (S.map emittedEvent)
  · exact List.sorted_insertionSort finalEventLE (S.map emittedEvent)

/-- **C3, witness** for `event_round_trip`: two calls, emitted out of
timestamp order, parse back to the two emitted events sorted by
timestamp. -/
theorem event_round_trip_witness :
    ∃ t, Tape.parse (roundTripTape [(5, 3, 7), (2, 4, 9)]) = some t ∧
      t.data.events
        = List.insertionSort finalEventLE ([(5, 3, 7), (2, 4, 9)].map emittedEvent) ∧
      t.data.events.Perm ([(5, 3, 7), (2, 4, 9)].map emittedEvent) ∧
      List.Sorted finalEventLE t.data.events :=
  event_round_trip [(5, 3, 7), (2, 4, 9)] (by decide)

/-! ## C5: values ordered by callsite field position -/

/-- The root loop only ever appends `toFinalSpan` images to the span
accumulator. -/
lemma processRoots_spans_inv (cmap : List (Nat × Nat)) (cfm : List ((Nat × Nat) × Nat)) :
    ∀ (roots : List Nat) (g : List (Option IntermediateSpan) × List (Nat × Nat))
      (spansAcc : List Span) (rootsAcc : List Nat) (ws : List SpanMapping)
      (out : (List (Option IntermediateSpan) × List (Nat × Nat)) ×
        List Span × List Nat × List SpanMapping),
      processRoots cmap cfm roots g spansAcc rootsAcc ws = some out →
      (∀ sp ∈ spansAcc, ∃ s, toFinalSpan cmap cfm s = some sp) →
      ∀ sp ∈ out.2.1, ∃ s, toFinalSpan cmap cfm s = some sp
  | [], g, spansAcc, rootsAcc, ws, out, h, hInv => by
    injection h with h
    subst h
    exact hInv
  | n :: rest, (nodes, edges), spansAcc, rootsAcc, ws, out, h, hInv => by
    simp only [processRoots] at h
    split at h
    · exact Option.noConfusion h
    · rename_i s nodes1 edges1 hrm
      split at h
      · exact Option.noConfusion h
      · rename_i fs hfs
        exact processRoots_spans_inv cmap cfm rest (nodes1, edges1) (spansAcc ++ [fs]) _ _ out h
          (fun sp hsp => by
            rcases List.mem_append.1 hsp with h1 | h2
            · exact hInv sp h1
            · rw [List.mem_singleton] at h2
              subst h2
              exact ⟨s, hfs⟩)

/-- The child loop of the worklist phase only ever appends
`toFinalSpan` images to the span accumulator. -/
lemma processChildList_spans_inv (cmap : List (Nat × Nat)) (cfm : List ((Nat × Nat) × Nat)) :
    ∀ (children : List Nat) (parent : Nat)
      (g : List (Option IntermediateSpan) × List (Nat × Nat))
      (spansAcc : List Span) (edgesAcc : List (Nat × Nat)) (ws : List SpanMapping)
      (out : (List (Option IntermediateSpan) × List (Nat × Nat)) ×
        List Span × List (Nat × Nat) × List SpanMapping),
      processChildList cmap cfm children parent g spansAcc edgesAcc ws = some out →
      (∀ sp ∈ spansAcc, ∃ s, toFinalSpan cmap cfm s = some sp) →
      ∀ sp ∈ out.2.1, ∃ s, toFinalSpan cmap cfm s = some sp
  | [], parent, g, spansAcc, edgesAcc, ws, out, h, hInv => by
    injection h with h
    subst h
    exact hInv
  | c :: rest, parent, (nodes, edges), spansAcc, edgesAcc, ws, out, h, hInv => by
    simp only [processChildList] at h
    split at h
    · exact Option.noConfusion h
    · rename_i s nodes1 edges1 hrm
      split at h
      · exact Option.noConfusion h
      · rename_i fs hfs
        exact processChildList_spans_inv cmap cfm rest parent (nodes1, edges1)
          (spansAcc ++ [fs]) _ _ out h
          (fun sp hsp => by
            rcases List.mem_append.1 hsp with h1 | h2
            · exact hInv sp h1
            · rw [List.mem_singleton] at h2
              subst h2
              exact ⟨s, hfs⟩)

/-- Every span the worklist phase outputs is a `toFinalSpan` image. -/
lemma drainWorklist_spans_inv (cmap : List (Nat × Nat)) (cfm : List ((Nat × Nat) × Nat)) :
    ∀ (fuel : Nat) (g : List (Option IntermediateSpan) × List (Nat × Nat))
      (ws : List SpanMapping) (spansAcc : List Span) (edgesAcc : List (Nat × Nat))
      (out : List Span × List (Nat × Nat)),
      drainWorklist cmap cfm fuel g ws spansAcc edgesAcc = some out →
      (∀ sp ∈ spansAcc, ∃ s, toFinalSpan cmap cfm s = some sp) →
      ∀ sp ∈ out.1, ∃ s, toFinalSpan cmap cfm s = some sp
  | 0, g, ws, spansAcc, edgesAcc, out, h, hInv => Option.noConfusion h
  | fuel + 1, g, [], spansAcc, edgesAcc, out, h, hInv => by
    injection h with h
    subst h
    exact hInv
  | fuel + 1, g, m :: ws, spansAcc, edgesAcc, out, h, hInv => by
    simp only [drainWorklist] at h
    split at h
    · exact Option.noConfusion h
    · rename_i g1 spans1 edges1 ws1 hPCL
      exact drainWorklist_spans_inv cmap cfm fuel g1 ws1 spans1 edges1 out h
        (processChildList_spans_inv cmap cfm m.old_children m.new_parent g
          spansAcc edgesAcc ws _ hPCL hInv)

/-- **C5.**  Every event and every span of the final model exposes its
values sorted by the position of each value field id in the declaring
callsite field list (the `callsite_field_map` key), not in the arrival
order of the value records: each value list is the key-sorted image of
an annotated list whose keys come from `buildFieldMapAux` over the
completed callsites. -/
theorem values_follow_callsite_field_order (ist : Intermediate) (td : TapeData)
    (h : TapeData.new ist = some td) :
    (∀ ev ∈ td.events, ∃ (ie : IntermediateEvent) (keyed : List (Nat × Value)),
        annotateValues (buildFieldMapAux ist.callsites []) ie.callsite_id ie.values
          = some keyed ∧
        ev.values = (List.insertionSort valueKeyLE keyed).map Prod.snd ∧
        List.Sorted valueKeyLE (List.insertionSort valueKeyLE keyed)) ∧
    (∀ sp ∈ td.spans, ∃ (isp : IntermediateSpan) (keyed : List (Nat × Value)),
        annotateSpanValues (buildFieldMapAux ist.callsites []) isp.callsite_id isp.values
          = some keyed ∧
        sp.values = (List.insertionSort valueKeyLE keyed).map Prod.snd ∧
        List.Sorted valueKeyLE (List.insertionSort valueKeyLE keyed)) := by
  simp only [TapeData.new] at h
  split at h
  · exact Option.noConfusion h
  · rename_i E hE
    split at h
    · exact Option.noConfusion h
    · rename_i g spansAcc rootsAcc ws hPR
      split at h
      · exact Option.noConfusion h
      · rename_i spans edgesAcc hDW
        injection h with h
        subst h
        constructor
        · intro ev hev
          obtain ⟨x, _, hx⟩ := mem_of_mapOpt _ _ _ hE ev hev
          simp only [toFinalEvent] at hx
          split at hx
          · exact Option.noConfusion hx
          · rename_i keyed hann
            split at hx
            · exact Option.noConfusion hx
            · rename_i ci hci
              injection hx with hx
              subst hx
              exact ⟨x, keyed, hann, rfl, List.sorted_insertionSort valueKeyLE keyed⟩
        · intro sp hsp
          have hPRinv := processRoots_spans_inv _ _ ist.root_nodes
            (ist.span_nodes, ist.span_edges) [] [] [] _ hPR
            (fun sp hsp => absurd hsp (List.not_mem_nil sp))
          have hDWinv := drainWorklist_spans_inv _ _ (ist.span_nodes.length + 1) g ws
            spansAcc [] _ hDW hPRinv
          obtain ⟨s, hs⟩ := hDWinv sp hsp
          simp only [toFinalSpan] at hs
          split at hs
          · exact Option.noConfusion hs
          · rename_i keyed hann
            split at hs
            · exact Option.noConfusion hs
            · rename_i ci hci
              injection hs with hs
              subst hs
              exact ⟨s, keyed, hann, rfl, List.sorted_insertionSort valueKeyLE keyed⟩

set_option maxRecDepth 4000 in
/-- **C5, witness** for `values_follow_callsite_field_order` at the
finalization of `c5State` (one span with a field-2 value, one event
with two field-2 values). -/
theorem values_follow_callsite_field_order_witness :
    (∀ ev ∈ c5Data.events, ∃ (ie : IntermediateEvent) (keyed : List (Nat × Value)),
        annotateValues (buildFieldMapAux c5State.callsites []) ie.callsite_id ie.values
          = some keyed ∧
        ev.values = (List.insertionSort valueKeyLE keyed).map Prod.snd ∧
        List.Sorted valueKeyLE (List.insertionSort valueKeyLE keyed)) ∧
    (∀ sp ∈ c5Data.spans, ∃ (isp : IntermediateSpan) (keyed : List (Nat × Value)),
        annotateSpanValues (buildFieldMapAux c5State.callsites []) isp.callsite_id isp.values
          = some keyed ∧
        sp.values = (List.insertionSort valueKeyLE keyed).map Prod.snd ∧
        List.Sorted valueKeyLE (List.insertionSort valueKeyLE keyed)) :=
  values_follow_callsite_field_order c5State c5Data rfl

end TTape
